import Mathlib

/-!
Verification development for `pycbc/tmpltbank/brute_force_methods.py`.

The four functions of that module — `get_physical_covaried_masses`,
`get_mass_distribution`, `stack_xi_direction_brute` and
`find_xi_extrema_brute` — are embedded shallowly over `ℚ`.  Python floats
become rationals; the two irrational float operations the module uses
(`x ** (3./5.)` and `x ** 0.5`) are supplied as an explicit bundle of
functions `FloatOps`, and the two collaborators imported from other modules
(`get_cov_params`, `get_beta_sigma_from_aligned_spins`) are supplied as an
explicit bundle `ExternalFns`, modelled from the spec (see below).  The
numpy random draws become explicit lists of rationals, one record of four
draws per candidate.  numpy arrays over candidates become `List`s, and the
module's vectorised array assignments become per-candidate maps; the
assignments `chirpmass[0] = ...` etc. become `List.set 0`.
-/

namespace BruteForce

/-- The fields of a `massRangeParameters` instance that
`get_mass_distribution` reads (mass bounds, eta bounds, spin magnitude
caps, and the nsbh flag).  `minEta` is a number whose Python truthiness
(`if massRangeParams.minEta:`) is modelled as `minEta ≠ 0`. -/
structure MassRangeParams where
  minMass1 : ℚ
  maxMass1 : ℚ
  minMass2 : ℚ
  maxMass2 : ℚ
  minTotMass : ℚ
  maxTotMass : ℚ
  maxEta : ℚ
  minEta : ℚ
  maxBHSpinMag : ℚ
  maxNSSpinMag : ℚ
  nsbhFlag : Bool
deriving DecidableEq

/-- The two float power operations used by the module, kept abstract so the
embedding stays over `ℚ`: `pow35 x` stands for `x ** (3./5.)` and `sqrt x`
for `x ** 0.5`. -/
structure FloatOps where
  pow35 : ℚ → ℚ
  sqrt : ℚ → ℚ

/-- Modelled from the spec: the two collaborators of the module that are not
part of this repository snapshot, `get_beta_sigma_from_aligned_spins`
(spin-derived quantities: "`derive(total_mass[], eta[], spin1z[],
spin2z[]) -> (beta[], sigma[], gamma[], chi_s[])`, vectorized, pure") and
`get_cov_params` (the Coordinate Transform: "given physical parameters
(total mass, symmetric mass ratio, aligned spins) and a frequency cutoff,
returns position in the reduced xi-coordinate space.  Pure, deterministic,
stateless per call", vectorised over equal-length arrays, one coordinate
array per xi dimension).  Both are modelled pointwise per candidate; the
dependence on `metricParams` and `fUpper` is absorbed into the functions. -/
structure ExternalFns where
  derive : ℚ → ℚ → ℚ → ℚ → ℚ × ℚ × ℚ × ℚ
  trans : ℚ → ℚ → ℚ → ℚ → ℚ → ℚ → List ℚ

/-- One candidate of a `get_mass_distribution` batch: one slot of each of
the parallel numpy arrays the function manipulates and returns. -/
structure Cand where
  chirpmass : ℚ
  totmass : ℚ
  eta : ℚ
  spin1z : ℚ
  spin2z : ℚ
  diff : ℚ
  mass1 : ℚ
  mass2 : ℚ
  beta : ℚ
  sigma : ℚ
  gamma : ℚ
  chis : ℚ
  xi : List ℚ
deriving DecidableEq, Inhabited

/-- One record of the four uniform draws (`numpy.random.random`) consumed
by one candidate slot. -/
structure DrawRec where
  rc : ℚ
  re : ℚ
  rs1 : ℚ
  rs2 : ℚ
deriving DecidableEq, Inhabited

/-- The initial perturbation of one candidate (lines 202-210):
`chirpmass = bestChirpmass * (1 - (r - 0.5) * chirpMassJumpFac * scaleFactor)`
and likewise for `eta`; the spins are perturbed additively. -/
def mkRaw (bm : ℚ × ℚ × ℚ × ℚ) (scaleFactor cfac efac s1fac s2fac : ℚ)
    (r : DrawRec) : Cand :=
  { chirpmass := bm.1 * (1 - (r.rc - 1/2) * cfac * scaleFactor)
    totmass := 0
    eta := bm.2.1 * (1 - (r.re - 1/2) * efac * scaleFactor)
    spin1z := bm.2.2.1 + (r.rs1 - 1/2) * s1fac * scaleFactor
    spin2z := bm.2.2.2 + (r.rs2 - 1/2) * s2fac * scaleFactor
    diff := 0, mass1 := 0, mass2 := 0
    beta := 0, sigma := 0, gamma := 0, chis := 0, xi := [] }

/-- The unperturbed central point as a candidate record: `Point[0] is
always set to the original point` (lines 212-216). -/
def guideRaw (bm : ℚ × ℚ × ℚ × ℚ) : Cand :=
  { chirpmass := bm.1, totmass := 0, eta := bm.2.1
    spin1z := bm.2.2.1, spin2z := bm.2.2.2
    diff := 0, mass1 := 0, mass2 := 0
    beta := 0, sigma := 0, gamma := 0, chis := 0, xi := [] }

/-- Line 219: `eta[eta > massRangeParams.maxEta] = massRangeParams.maxEta`. -/
def clampEtaMax (p : MassRangeParams) (e : ℚ) : ℚ :=
  if p.maxEta < e then p.maxEta else e

/-- Lines 220-223.  When `minEta` is truthy the source executes
`eta[eta > massRangeParams.minEta] = massRangeParams.minEta` — the
comparison is `>`, so values above `minEta` are lowered to it and values
below it are left alone; otherwise `eta[eta < 0.0001] = 0.0001`. -/
def clampEtaMin (p : MassRangeParams) (e : ℚ) : ℚ :=
  if p.minEta ≠ 0 then (if p.minEta < e then p.minEta else e)
  else (if e < 0.0001 then 0.0001 else e)

/-- Lines 226-233: total mass `chirpmass / eta**(3./5.)`, the mass
difference `(totmass*totmass * (1-4*eta))**0.5`, the component masses, and
the spin-derived quantities from `get_beta_sigma_from_aligned_spins`. -/
def candDerive (ext : ExternalFns) (ops : FloatOps) (c : Cand) : Cand :=
  let totmass := c.chirpmass / ops.pow35 c.eta
  let diff := ops.sqrt (totmass * totmass * (1 - 4 * c.eta))
  let d := ext.derive totmass c.eta c.spin1z c.spin2z
  { c with totmass := totmass, diff := diff
           mass1 := (totmass + diff) / 2, mass2 := (totmass - diff) / 2
           beta := d.1, sigma := d.2.1, gamma := d.2.2.1, chis := d.2.2.2 }

/-- Line 236: `numploga1 = numpy.logical_and(mass1 > 2,99, abs(spin1z) <=
massRangeParams.maxBHSpinMag)`.  The literal `2,99` splits into two
arguments, so the spin comparison array becomes the third positional
argument of `numpy.logical_and`, its `out` parameter; the computed mask is
`logical_and(mass1 > 2, 99)`, and since the scalar `99` is truthy this is
elementwise `mass1 > 2`.  The spin condition itself is overwritten and
discarded. -/
def numploga1 (c : Cand) : Bool :=
  decide (2 < c.mass1)

/-- Lines 238-243: body-1 validity mask. -/
def numploga (p : MassRangeParams) (c : Cand) : Bool :=
  if p.nsbhFlag then numploga1 c
  else numploga1 c ||
    (decide (c.mass1 < 3.01) && decide (|c.spin1z| ≤ p.maxNSSpinMag))

/-- Lines 244-245: `numplogb2 = logical_and(abs(spin2z) <= maxNSSpinMag,
mass2 < 3.01)`. -/
def numplogb2 (p : MassRangeParams) (c : Cand) : Bool :=
  decide (|c.spin2z| ≤ p.maxNSSpinMag) && decide (c.mass2 < 3.01)

/-- Lines 246-251: body-2 validity mask, with the black-hole branch
`logical_and(mass2 > 2.99, abs(spin2z) <= maxBHSpinMag)`. -/
def numplogb (p : MassRangeParams) (c : Cand) : Bool :=
  if p.nsbhFlag then numplogb2 p c
  else (decide (2.99 < c.mass2) && decide (|c.spin2z| ≤ p.maxBHSpinMag)) ||
    numplogb2 p c

/-- Lines 252-253: `numplog = logical_not(logical_and(numploga, numplogb))`;
`true` marks a candidate whose spin/mass classification failed. -/
def numplog (p : MassRangeParams) (c : Cand) : Bool :=
  !(numploga p c && numplogb p c)

/-- Lines 256-261: zero out `beta, sigma, gamma, chis, spin1z, spin2z`
where `numplog` holds. -/
def applySpinFilter (p : MassRangeParams) (c : Cand) : Cand :=
  if numplog p c then
    { c with beta := 0, sigma := 0, gamma := 0, chis := 0
             spin1z := 0, spin2z := 0 }
  else c

/-- Lines 265-274: map the total mass of candidates whose component or
total masses fall outside the configured bounds to the sentinel `0.0001`,
in source order (the total-mass comparisons read the already-updated
array). -/
def applyMassFilter (p : MassRangeParams) (c : Cand) : Cand :=
  let t0 := c.totmass
  let t1 := if c.mass1 < p.minMass1 then 0.0001 else t0
  let t2 := if p.maxMass1 < c.mass1 then 0.0001 else t1
  let t3 := if c.mass2 < p.minMass2 then 0.0001 else t2
  let t4 := if p.maxMass2 < c.mass2 then 0.0001 else t3
  let t5 := if p.maxTotMass * 1.0001 < t4 then 0.0001 else t4
  let t6 := if t5 < p.minTotMass * 0.9999 then 0.0001 else t5
  { c with totmass := t6 }

/-- Line 280: map the surviving candidates through the Coordinate
Transform. -/
def applyTrans (ext : ExternalFns) (c : Cand) : Cand :=
  { c with xi := ext.trans c.totmass c.eta c.beta c.sigma c.gamma c.chis }

/-- `get_mass_distribution` (lines 122-283).  `bm` is the central point
`[ChirpMass, eta, spin1z, spin2z]`; `draws` supplies one uniform draw
record per candidate slot (so `draws.length` plays the part of
`numJumpPoints`); the four `*fac` arguments are the jump factors whose
Python defaults are `0.0001, 0.01, 0.01, 0.01`.  An empty batch is an
error (the assignment `chirpmass[0] = bestChirpmass` would fail); the two
`raise ValueError("Cannot remove the guide point!")` sites are lines
254-255 and 276-277. -/
def get_mass_distribution (ext : ExternalFns) (ops : FloatOps)
    (bm : ℚ × ℚ × ℚ × ℚ) (scaleFactor : ℚ) (p : MassRangeParams)
    (draws : List DrawRec) (cfac efac s1fac s2fac : ℚ) :
    Except String (List Cand) :=
  match draws with
  | [] => Except.error "index 0 out of range"
  | _ :: _ =>
    let raw := ((draws.map (mkRaw bm scaleFactor cfac efac s1fac s2fac)).set
      0 (guideRaw bm)).map
      (fun c => { c with eta := clampEtaMin p (clampEtaMax p c.eta) })
    let derived := raw.map (candDerive ext ops)
    if numplog p (derived.headD default) then
      Except.error "Cannot remove the guide point!"
    else
      let filtered := derived.map
        (fun c => applyMassFilter p (applySpinFilter p c))
      if (filtered.headD default).totmass < 0.00011 then
        Except.error "Cannot remove the guide point!"
      else
        Except.ok (filtered.map (applyTrans ext))

/-- The minimum of a list of rationals (`cDist.min()`); junk value `0` for
the empty list, which never arises since `get_mass_distribution` rejects
empty batches. -/
def listMin : List ℚ → ℚ
  | [] => 0
  | x :: xs => xs.foldl min x

/-- The maximum of a list of rationals. -/
def listMax : List ℚ → ℚ
  | [] => 0
  | x :: xs => xs.foldl max x

/-- Tail worker for `argminList`: `i` is the index of the next element,
`bi`/`bv` the index and value of the best element so far; strict `<` keeps
the first occurrence of the minimum, like `numpy.argmin`. -/
def argminGo : List ℚ → ℕ → ℕ → ℚ → ℕ
  | [], _, bi, _ => bi
  | y :: ys, i, bi, bv =>
    if y < bv then argminGo ys (i + 1) i y else argminGo ys (i + 1) bi bv

/-- First index attaining the minimum (`cDist.argmin()`). -/
def argminList : List ℚ → ℕ
  | [] => 0
  | x :: xs => argminGo xs 1 0 x

/-- Tail worker for `argmaxList`; strict `>` keeps the first occurrence,
like `numpy.argmax`. -/
def argmaxGo : List ℚ → ℕ → ℕ → ℚ → ℕ
  | [], _, bi, _ => bi
  | y :: ys, i, bi, bv =>
    if bv < y then argmaxGo ys (i + 1) i y else argmaxGo ys (i + 1) bi bv

/-- First index attaining the maximum. -/
def argmaxList : List ℚ → ℕ
  | [] => 0
  | x :: xs => argmaxGo xs 1 0 x

/-- The squared xi-space distance of one candidate's xi position to the
target (lines 86-88): `cDist = (new_xis[0]-xis[0])**2` summed over the
target's `xi_size` dimensions. -/
def cDistOf (target xi : List ℚ) : ℚ :=
  ((List.range target.length).map
    (fun j => (xi.getD j 0 - target.getD j 0) * (xi.getD j 0 - target.getD j 0))).sum

/-! ## Nearest-Point Search: `get_physical_covaried_masses` -/

/-- The inputs of `get_physical_covaried_masses` that stay fixed across
iterations: the external functions, the target `xis`, `req_match`, the
mass-range configuration, `giveUpThresh`, and the stream of random draw
batches (`draws k` is the batch consumed by the iteration with `count = k`). -/
structure GpcmEnv where
  ext : ExternalFns
  ops : FloatOps
  xis : List ℚ
  req_match : ℚ
  p : MassRangeParams
  giveUpThresh : ℕ
  draws : ℕ → List DrawRec

/-- The mutable locals of the `while(1)` loop (lines 70-75): `bestMasses`
as four rationals, `bestChirpmass`, `count`, `unFixedCount`, `currDist`
and `scaleFactor`. -/
structure GpcmState where
  bm0 : ℚ
  bm1 : ℚ
  bm2 : ℚ
  bm3 : ℚ
  bestChirpmass : ℚ
  count : ℕ
  unFixedCount : ℕ
  currDist : ℚ
  scaleFactor : ℚ
deriving DecidableEq

/-- The tuple returned by `get_physical_covaried_masses`. -/
structure GpcmResult where
  mass1 : ℚ
  mass2 : ℚ
  spin1z : ℚ
  spin2z : ℚ
  count : ℕ
  dist : ℚ
  new_xis : List ℚ
deriving DecidableEq

/-- Outcome of running the loop with bounded fuel: the return at lines
93-94 (`converged`), the give-up return at lines 113-114 (`gaveUp`), or
fuel exhaustion with the state reached so far. -/
inductive GpcmOut where
  | converged : GpcmResult → GpcmOut
  | gaveUp : GpcmResult → GpcmOut
  | outOfFuel : GpcmState → GpcmOut
deriving DecidableEq

/-- Lines 78-80: `origScaleFactor` is the constant `1`; when `count` is
nonzero, `currDist > 1` and the scale factor still equals it, the loop
raises the scale factor to `origScaleFactor*10` before sampling, and the
assignment persists for the rest of the iteration. -/
def gpcmUsedSF (s : GpcmState) : ℚ :=
  if s.count ≠ 0 ∧ 1 < s.currDist ∧ s.scaleFactor = 1 then 10 else s.scaleFactor

/-- Result of one iteration of the `while(1)` body. -/
inductive GpcmStepRes where
  | retConv : GpcmResult → GpcmStepRes
  | retGiveUp : GpcmResult → GpcmStepRes
  | next : GpcmState → GpcmStepRes
deriving DecidableEq

/-- One iteration of the loop body (lines 78-118).  Besides the control
outcome it reports the scale factor actually passed to
`get_mass_distribution` and the round's minimum squared distance
`cDist.min()`; these two ghost components only instrument the embedding
for the specification and do not feed back into the computation. -/
def gpcmStep (env : GpcmEnv) (s : GpcmState) :
    Except String (GpcmStepRes × ℚ × ℚ) :=
  let sf := gpcmUsedSF s
  match get_mass_distribution env.ext env.ops (s.bestChirpmass, s.bm1, s.bm2, s.bm3)
      sf env.p (env.draws s.count) 0.0001 0.01 0.01 0.01 with
  | Except.error e => Except.error e
  | Except.ok batch =>
    let cDist := batch.map (fun c => cDistOf env.xis c.xi)
    let mn := listMin cDist
    if mn < env.req_match then
      let idx := argminList cDist
      let c := batch.getD idx default
      Except.ok (GpcmStepRes.retConv
        { mass1 := c.mass1, mass2 := c.mass2, spin1z := c.spin1z
          spin2z := c.spin2z, count := s.count, dist := mn, new_xis := c.xi },
        sf, mn)
    else
      let s1 : GpcmState :=
        if mn < s.currDist then
          let idx := argminList cDist
          let c := batch.getD idx default
          { s with bm0 := c.totmass, bm1 := c.eta, bm2 := c.spin1z
                   bm3 := c.spin2z
                   bestChirpmass := c.totmass * env.ops.pow35 c.eta
                   currDist := mn, unFixedCount := 0, scaleFactor := 1 }
        else { s with scaleFactor := sf }
      let s2 : GpcmState := { s1 with count := s1.count + 1, unFixedCount := s1.unFixedCount + 1 }
      if env.giveUpThresh < s2.unFixedCount then
        let d := env.ops.sqrt (s2.bm0 * s2.bm0 * (1 - 4 * s2.bm1))
        Except.ok (GpcmStepRes.retGiveUp
          { mass1 := (s2.bm0 + d) / 2, mass2 := (s2.bm0 - d) / 2
            spin1z := s2.bm2, spin2z := s2.bm3, count := s2.count
            dist := s2.currDist, new_xis := (batch.getD 0 default).xi },
          sf, mn)
      else
        let s3 : GpcmState := if s2.unFixedCount % 100 = 0 then
            { s2 with scaleFactor := s2.scaleFactor * 2 } else s2
        let s4 : GpcmState := if (64 : ℚ) < s3.scaleFactor then { s3 with scaleFactor := 1 } else s3
        Except.ok (GpcmStepRes.next s4, sf, mn)

/-- The `while(1)` loop run with fuel, collecting the ghost trace of
per-iteration `(scale factor used, round minimum distance)` pairs. -/
def gpcmRunT (env : GpcmEnv) : ℕ → GpcmState → Except String GpcmOut × List (ℚ × ℚ)
  | 0, s => (Except.ok (GpcmOut.outOfFuel s), [])
  | n + 1, s =>
    match gpcmStep env s with
    | Except.error e => (Except.error e, [])
    | Except.ok (GpcmStepRes.retConv r, sf, mn) =>
      (Except.ok (GpcmOut.converged r), [(sf, mn)])
    | Except.ok (GpcmStepRes.retGiveUp r, sf, mn) =>
      (Except.ok (GpcmOut.gaveUp r), [(sf, mn)])
    | Except.ok (GpcmStepRes.next s4, sf, mn) =>
      let rest := gpcmRunT env n s4
      (rest.1, (sf, mn) :: rest.2)

/-- The initial state of `get_physical_covaried_masses` (lines 67-75):
`bestMasses` is `[totalMass, eta, spin1z, spin2z]`, `bestChirpmass =
bestMasses[0] * bestMasses[1]**(3./5.)`, `currDist` starts at `1e17` and
`scaleFactor` at `origScaleFactor = 1`. -/
def gpcmInit (ops : FloatOps) (bm : ℚ × ℚ × ℚ × ℚ) : GpcmState :=
  { bm0 := bm.1, bm1 := bm.2.1, bm2 := bm.2.2.1, bm3 := bm.2.2.2
    bestChirpmass := bm.1 * ops.pow35 bm.2.1
    count := 0, unFixedCount := 0
    currDist := 100000000000000000, scaleFactor := 1 }

/-- `get_physical_covaried_masses` (lines 7-120), run with bounded fuel. -/
def get_physical_covaried_masses (env : GpcmEnv) (bm : ℚ × ℚ × ℚ × ℚ)
    (fuel : ℕ) : Except String GpcmOut :=
  (gpcmRunT env fuel (gpcmInit env.ops bm)).1

/-! ## Extremum Search: `find_xi_extrema_brute` and
`stack_xi_direction_brute` -/

/-- The inputs of `find_xi_extrema_brute` that stay fixed across
iterations. -/
structure XiEnv where
  ext : ExternalFns
  ops : FloatOps
  xis : List ℚ
  direction_num : ℕ
  req_match : ℚ
  p : MassRangeParams
  scaleFactor : ℚ

/-- The mutable locals of the `for` loop of `find_xi_extrema_brute`:
`bestMasses` (the Python list, mutated in place at lines 447-450),
`bestChirpmass`, and the running extremum `xiextrema`. -/
structure XiState where
  bm0 : ℚ
  bm1 : ℚ
  bm2 : ℚ
  bm3 : ℚ
  bestChirpmass : ℚ
  xiextrema : ℚ
deriving DecidableEq

/-- One iteration of the `find_xi_extrema_brute` loop (lines 424-453).
The second component of the result is ghost instrumentation: the list of
xi-direction values of this round's candidates that survive the sentinel
overwrite (those with `cDist ≤ req_match`, the source's `redXis` plus the
measure-zero boundary `cDist == req_match`), emitted only when the round
executes (`len(redCDist)` nonzero); it does not feed back into the
computation. -/
def xiStep (env : XiEnv) (find_minimum : Bool) (s : XiState)
    (draws : List DrawRec) : Except String (XiState × List ℚ) :=
  match get_mass_distribution env.ext env.ops (s.bestChirpmass, s.bm1, s.bm2, s.bm3)
      env.scaleFactor env.p draws 0.0001 0.01 0.01 0.01 with
  | Except.error e => Except.error e
  | Except.ok batch =>
    let cDist := batch.map (fun c => cDistOf env.xis c.xi)
    let vals := batch.map (fun c => c.xi.getD env.direction_num 0)
    let redCDist := cDist.filter (fun d => d < env.req_match)
    if redCDist = [] then Except.ok (s, [])
    else
      let part := (vals.zip cDist).filterMap
        (fun vd => if vd.2 ≤ env.req_match then some vd.1 else none)
      let sentinel : ℚ := if find_minimum then 10000000 else -10000000
      let overwritten := (vals.zip cDist).map
        (fun vd => if env.req_match < vd.2 then sentinel else vd.1)
      let currXiExtrema :=
        if find_minimum then listMin overwritten else listMax overwritten
      let idx :=
        if find_minimum then argminList overwritten else argmaxList overwritten
      if (¬ find_minimum ∧ s.xiextrema < currXiExtrema) ∨
          (find_minimum ∧ currXiExtrema < s.xiextrema) then
        let c := batch.getD idx default
        Except.ok ({ bm0 := c.totmass, bm1 := c.eta, bm2 := c.spin1z
                     bm3 := c.spin2z
                     bestChirpmass := c.totmass * env.ops.pow35 c.eta
                     xiextrema := currXiExtrema }, part)
      else Except.ok (s, part)

/-- The `for i in range(numIterations)` loop: one entry of `drawss` per
iteration, threading the state and concatenating the ghost value traces. -/
def xiLoop (env : XiEnv) (find_minimum : Bool) :
    List (List DrawRec) → XiState → Except String (XiState × List ℚ)
  | [], s => Except.ok (s, [])
  | d :: rest, s =>
    match xiStep env find_minimum s d with
    | Except.error e => Except.error e
    | Except.ok (s1, part) =>
      match xiLoop env find_minimum rest s1 with
      | Except.error e => Except.error e
      | Except.ok (sf, tr) => Except.ok (sf, part ++ tr)

/-- The initial state of `find_xi_extrema_brute` (lines 416-422):
`bestChirpmass = bestMasses[0] * bestMasses[1]**(3./5.)` and `xiextrema`
starts at `1e10` when minimising, `-1e11` when maximising.  (The deep copy
`origMasses` made at line 417 is never used again.) -/
def xiInit (ops : FloatOps) (bm : ℚ × ℚ × ℚ × ℚ) (find_minimum : Bool) :
    XiState :=
  { bm0 := bm.1, bm1 := bm.2.1, bm2 := bm.2.2.1, bm3 := bm.2.2.2
    bestChirpmass := bm.1 * ops.pow35 bm.2.1
    xiextrema := if find_minimum then 10000000000 else -100000000000 }

/-- `find_xi_extrema_brute` (lines 357-454).  Returns the extremum
together with the final value of the caller's `bestMasses` list (which the
loop mutates in place) and the ghost trace of surviving xi-direction
values. -/
def find_xi_extrema_brute (env : XiEnv) (bm : ℚ × ℚ × ℚ × ℚ)
    (find_minimum : Bool) (drawss : List (List DrawRec)) :
    Except String (ℚ × (ℚ × ℚ × ℚ × ℚ) × List ℚ) :=
  match xiLoop env find_minimum drawss (xiInit env.ops bm find_minimum) with
  | Except.error e => Except.error e
  | Except.ok (s, tr) =>
    Except.ok (s.xiextrema, (s.bm0, s.bm1, s.bm2, s.bm3), tr)

/-- `stack_xi_direction_brute` (lines 285-355): run `find_xi_extrema_brute`
minimising, then maximising.  `bestMasses` is one Python list passed to
both calls, and the first call mutates it in place, so the maximise call
starts from the masses the minimise call ended with. -/
def stack_xi_direction_brute (env : XiEnv) (bm : ℚ × ℚ × ℚ × ℚ)
    (drawssMin drawssMax : List (List DrawRec)) : Except String (ℚ × ℚ) :=
  match find_xi_extrema_brute env bm true drawssMin with
  | Except.error e => Except.error e
  | Except.ok (ximin, bmAfter, _) =>
    match find_xi_extrema_brute env bmAfter false drawssMax with
    | Except.error e => Except.error e
    | Except.ok (ximax, _, _) => Except.ok (ximin, ximax)

/-! ## The guide candidate and the shape of a sampler call -/

/-- The index-0 (guide) candidate as `get_mass_distribution` computes it:
the unperturbed central point, run through the eta clamps and the
mass/spin derivations.  Its value does not depend on the draws. -/
def guideCand (ext : ExternalFns) (ops : FloatOps) (bm : ℚ × ℚ × ℚ × ℚ)
    (p : MassRangeParams) : Cand :=
  candDerive ext ops
    { guideRaw bm with eta := clampEtaMin p (clampEtaMax p bm.2.1) }

/-! ## Concrete instantiations used by the counterexamples and witnesses

`opsUnit` fixes `pow35` to the constant `1` and `sqrt` to the constant `0`;
at the points the concrete runs visit, `sqrt` is only applied to
`totmass² · (1 - 4·(1/4)) = 0`, where the real square root is also `0`.
`extTot` is a coordinate transform whose single xi coordinate is the total
mass, and a `derive` returning `(0, 0, 0, (s1+s2)/2)`.  The draw value
`1/2` makes a perturbation vanish (`numpy.random.random() - 0.5 = 0`). -/

def opsUnit : FloatOps := ⟨fun _ => 1, fun _ => 0⟩

def extTot : ExternalFns :=
  ⟨fun _ _ s1 s2 => (0, 0, 0, (s1 + s2) / 2), fun t _ _ _ _ _ => [t]⟩

/-- Wide mass bounds `[1,10]` per component, `[2,20]` total, `maxEta = 1/4`,
no `minEta`, `maxBHSpinMag = 9/10`, `maxNSSpinMag = 1/20`, `nsbhFlag`
off. -/
def paramsWide : MassRangeParams :=
  ⟨1, 10, 1, 10, 2, 20, 1/4, 0, 9/10, 1/20, false⟩

/-- `paramsWide` with `minEta = 1/10` configured (truthy). -/
def paramsMinEta : MassRangeParams :=
  ⟨1, 10, 1, 10, 2, 20, 1/4, 1/10, 9/10, 1/20, false⟩

/-- `paramsWide` with `maxMass1` tightened to `3.0001`, just above the
guide's component mass `3`. -/
def paramsNarrowM1 : MassRangeParams :=
  ⟨1, 30001/10000, 1, 10, 2, 20, 1/4, 0, 9/10, 1/20, false⟩

/-- Bounds admitting tiny masses: components in `[0,100]`, total in
`[0.00005, 100]`. -/
def paramsTinyTot : MassRangeParams :=
  ⟨0, 100, 0, 100, 1/20000, 100, 1/4, 0, 9/10, 1/20, false⟩

def drawHalf : DrawRec := ⟨1/2, 1/2, 1/2, 1/2⟩

/-- Nearest-point environment whose transform sends the sentinel total
mass `0.0001` exactly onto the target `[0.0001]`; every batch has the
guide plus one candidate pushed just past `maxMass1`. -/
def envNearest : GpcmEnv :=
  ⟨extTot, opsUnit, [1/10000], 1/1000000, paramsNarrowM1, 5000,
    fun _ => [drawHalf, ⟨0, 1/2, 1/2, 1/2⟩]⟩

/-- Nearest-point environment whose target `[6]` is exactly the transform
of the starting point `(6, 1/4, 0, 0)`. -/
def envExact : GpcmEnv :=
  ⟨extTot, opsUnit, [6], 1, paramsWide, 5000, fun _ => [drawHalf]⟩

/-- Nearest-point environment with `req_match = 0` (never satisfiable) and
`giveUpThresh = 0` (gives up after one stagnant iteration). -/
def envGiveUp : GpcmEnv :=
  ⟨extTot, opsUnit, [6], 0, paramsWide, 0, fun _ => [drawHalf]⟩

/-- Extremum-search environment around the target `[6]`, cutoff `1`,
scale factor `2500`. -/
def xiEnvMut : XiEnv := ⟨extTot, opsUnit, [6], 0, 1, paramsWide, 2500⟩

/-- Extremum-search environment with cutoff `0`: no candidate ever has
squared distance below it. -/
def xiEnvZero : XiEnv := ⟨extTot, opsUnit, [6], 0, 0, paramsWide, 1⟩

/-- Extremum-search environment around the target `[6]` with cutoff `1`
and unit scale factor. -/
def xiEnvOne : XiEnv := ⟨extTot, opsUnit, [6], 0, 1, paramsWide, 1⟩

/-- One extremum round: the guide plus a candidate whose chirp-mass draw
`5/6` moves the total mass from `6` to `5.5` at scale factor `2500`. -/
def drawsShift : List (List DrawRec) := [[drawHalf, ⟨5/6, 1/2, 1/2, 1/2⟩]]

/-- One extremum round containing only the unperturbed guide. -/
def drawsGuide : List (List DrawRec) := [[drawHalf]]

/-- Unfolding of `get_mass_distribution` on a nonempty batch: the two
error checks examine only the guide candidate, and on success the batch is
the draw list pushed through the per-candidate pipeline. -/
theorem gmd_cons (ext : ExternalFns) (ops : FloatOps) (bm : ℚ × ℚ × ℚ × ℚ)
    (sf : ℚ) (p : MassRangeParams) (x : DrawRec) (xs : List DrawRec)
    (cfac efac s1fac s2fac : ℚ) :
    get_mass_distribution ext ops bm sf p (x :: xs) cfac efac s1fac s2fac =
      (if numplog p (guideCand ext ops bm p) then
        Except.error "Cannot remove the guide point!"
      else if (applyMassFilter p (applySpinFilter p (guideCand ext ops bm p))).totmass
          < 0.00011 then
        Except.error "Cannot remove the guide point!"
      else
        Except.ok (((((((x :: xs).map (mkRaw bm sf cfac efac s1fac s2fac)).set 0
          (guideRaw bm)).map
          (fun c => { c with eta := clampEtaMin p (clampEtaMax p c.eta) })).map
          (candDerive ext ops)).map
          (fun c => applyMassFilter p (applySpinFilter p c))).map
          (applyTrans ext))) :=
  rfl

/-- A successful sampler call never returns an empty batch. -/
theorem gmd_ok_ne_nil (ext : ExternalFns) (ops : FloatOps) (bm : ℚ × ℚ × ℚ × ℚ)
    (sf : ℚ) (p : MassRangeParams) (draws : List DrawRec)
    (cfac efac s1fac s2fac : ℚ) (b : List Cand)
    (h : get_mass_distribution ext ops bm sf p draws cfac efac s1fac s2fac =
      Except.ok b) : b ≠ [] := by
  cases draws with
  | nil => simp [get_mass_distribution] at h
  | cons x xs =>
    rw [gmd_cons] at h
    split_ifs at h
    injection h with h3
    rw [← h3]
    simp

/-! ## List helpers -/

theorem foldlMin_le_init (l : List ℚ) (a : ℚ) : l.foldl min a ≤ a := by
  induction l generalizing a with
  | nil => exact le_refl a
  | cons x xs ih => exact le_trans (ih (min a x)) (min_le_left a x)

theorem foldlMin_le_mem (l : List ℚ) (a x : ℚ) (hx : x ∈ l) :
    l.foldl min a ≤ x := by
  induction l generalizing a with
  | nil => cases hx
  | cons y ys ih =>
    cases List.mem_cons.1 hx with
    | inl h =>
      subst h
      exact le_trans (foldlMin_le_init ys (min a x)) (min_le_right a x)
    | inr h => exact ih (min a y) h

theorem le_foldlMin (l : List ℚ) (a c : ℚ) (ha : c ≤ a)
    (hl : ∀ x ∈ l, c ≤ x) : c ≤ l.foldl min a := by
  induction l generalizing a with
  | nil => exact ha
  | cons y ys ih =>
    exact ih (min a y) (le_min ha (hl y (List.mem_cons_self y ys)))
      (fun x hx => hl x (List.mem_cons_of_mem y hx))

theorem foldlMin_eq_or_mem (l : List ℚ) (a : ℚ) :
    l.foldl min a = a ∨ l.foldl min a ∈ l := by
  induction l generalizing a with
  | nil => exact Or.inl rfl
  | cons y ys ih =>
    cases ih (min a y) with
    | inl h =>
      rw [List.foldl_cons, h]
      rcases min_choice a y with h2 | h2
      · exact Or.inl h2
      · exact Or.inr (by rw [h2]; exact List.mem_cons_self y ys)
    | inr h => exact Or.inr (List.mem_cons_of_mem y h)

theorem listMin_le (l : List ℚ) (x : ℚ) (hx : x ∈ l) : listMin l ≤ x := by
  cases l with
  | nil => cases hx
  | cons y ys =>
    cases List.mem_cons.1 hx with
    | inl h => subst h; exact foldlMin_le_init ys x
    | inr h => exact foldlMin_le_mem ys y x h

theorem listMin_mem (l : List ℚ) (h : l ≠ []) : listMin l ∈ l := by
  cases l with
  | nil => exact absurd rfl h
  | cons y ys =>
    show ys.foldl min y ∈ y :: ys
    cases foldlMin_eq_or_mem ys y with
    | inl h2 => rw [h2]; exact List.mem_cons_self y ys
    | inr h2 => exact List.mem_cons_of_mem y h2

theorem le_listMin (l : List ℚ) (c : ℚ) (h : l ≠ []) (hl : ∀ x ∈ l, c ≤ x) :
    c ≤ listMin l := by
  cases l with
  | nil => exact absurd rfl h
  | cons y ys =>
    exact le_foldlMin ys y c (hl y (List.mem_cons_self y ys))
      (fun x hx => hl x (List.mem_cons_of_mem y hx))

theorem foldlMax_init_le (l : List ℚ) (a : ℚ) : a ≤ l.foldl max a := by
  induction l generalizing a with
  | nil => exact le_refl a
  | cons x xs ih => exact le_trans (le_max_left a x) (ih (max a x))

theorem foldlMax_mem_le (l : List ℚ) (a x : ℚ) (hx : x ∈ l) :
    x ≤ l.foldl max a := by
  induction l generalizing a with
  | nil => cases hx
  | cons y ys ih =>
    cases List.mem_cons.1 hx with
    | inl h =>
      subst h
      exact le_trans (le_max_right a x) (foldlMax_init_le ys (max a x))
    | inr h => exact ih (max a y) h

theorem foldlMax_le (l : List ℚ) (a c : ℚ) (ha : a ≤ c)
    (hl : ∀ x ∈ l, x ≤ c) : l.foldl max a ≤ c := by
  induction l generalizing a with
  | nil => exact ha
  | cons y ys ih =>
    exact ih (max a y) (max_le ha (hl y (List.mem_cons_self y ys)))
      (fun x hx => hl x (List.mem_cons_of_mem y hx))

theorem foldlMax_eq_or_mem (l : List ℚ) (a : ℚ) :
    l.foldl max a = a ∨ l.foldl max a ∈ l := by
  induction l generalizing a with
  | nil => exact Or.inl rfl
  | cons y ys ih =>
    cases ih (max a y) with
    | inl h =>
      rw [List.foldl_cons, h]
      rcases max_choice a y with h2 | h2
      · exact Or.inl h2
      · exact Or.inr (by rw [h2]; exact List.mem_cons_self y ys)
    | inr h => exact Or.inr (List.mem_cons_of_mem y h)

theorem le_listMax (l : List ℚ) (x : ℚ) (hx : x ∈ l) : x ≤ listMax l := by
  cases l with
  | nil => cases hx
  | cons y ys =>
    cases List.mem_cons.1 hx with
    | inl h => subst h; exact foldlMax_init_le ys x
    | inr h => exact foldlMax_mem_le ys y x h

theorem listMax_mem (l : List ℚ) (h : l ≠ []) : listMax l ∈ l := by
  cases l with
  | nil => exact absurd rfl h
  | cons y ys =>
    show ys.foldl max y ∈ y :: ys
    cases foldlMax_eq_or_mem ys y with
    | inl h2 => rw [h2]; exact List.mem_cons_self y ys
    | inr h2 => exact List.mem_cons_of_mem y h2

theorem argminGo_of_ge : ∀ (l : List ℚ) (i bi : ℕ) (bv : ℚ),
    (∀ y ∈ l, ¬ y < bv) → argminGo l i bi bv = bi
  | [], _, _, _, _ => rfl
  | y :: ys, i, bi, bv, h => by
    rw [argminGo, if_neg (h y (List.mem_cons_self y ys))]
    exact argminGo_of_ge ys (i + 1) bi bv
      (fun z hz => h z (List.mem_cons_of_mem y hz))

theorem argminList_head (x : ℚ) (xs : List ℚ) (h : ∀ y ∈ xs, x ≤ y) :
    argminList (x :: xs) = 0 :=
  argminGo_of_ge xs 1 0 x (fun y hy => not_lt.2 (h y hy))

theorem cDistOf_nonneg (target xi : List ℚ) : 0 ≤ cDistOf target xi :=
  List.sum_nonneg (by
    intro y hy
    rcases List.mem_map.1 hy with ⟨j, _, rfl⟩
    exact mul_self_nonneg _)

/-! ## Properties of one Nearest-Point Search iteration -/

/-- The scale factor passed to the sampler stays within `[1, 64]` whenever
the stored one does: the only adjustment before sampling raises a unit
scale factor to `10`. -/
theorem gpcmUsedSF_bounds (s : GpcmState) (h1 : 1 ≤ s.scaleFactor)
    (h64 : s.scaleFactor ≤ 64) :
    1 ≤ gpcmUsedSF s ∧ gpcmUsedSF s ≤ 64 := by
  unfold gpcmUsedSF
  split_ifs
  · constructor <;> norm_num
  · exact ⟨h1, h64⟩

/-- The scale factor reported by one loop iteration is the one the
pre-sampling adjustment produced. -/
theorem gpcmStep_sf_eq (env : GpcmEnv) (s : GpcmState) (r : GpcmStepRes)
    (sf mn : ℚ) (h : gpcmStep env s = Except.ok (r, sf, mn)) :
    sf = gpcmUsedSF s := by
  unfold gpcmStep at h
  simp only [] at h
  cases hs : get_mass_distribution env.ext env.ops
      (s.bestChirpmass, s.bm1, s.bm2, s.bm3) (gpcmUsedSF s) env.p
      (env.draws s.count) 0.0001 0.01 0.01 0.01 with
  | error e => rw [hs] at h; simp at h
  | ok batch =>
    rw [hs] at h
    simp only [] at h
    split_ifs at h <;>
      simp only [Except.ok.injEq, Prod.mk.injEq] at h <;>
      exact h.2.1.symm

/-- A give-up return carries the minimum of the stored distance and this
round's minimum, the incremented count, and only happens when the round
did not converge. -/
theorem gpcmStep_giveUp_spec (env : GpcmEnv) (s : GpcmState)
    (res : GpcmResult) (sf mn : ℚ)
    (h : gpcmStep env s = Except.ok (GpcmStepRes.retGiveUp res, sf, mn)) :
    res.dist = min s.currDist mn ∧ res.count = s.count + 1 ∧
      ¬ mn < env.req_match := by
  unfold gpcmStep at h
  simp only [] at h
  cases hs : get_mass_distribution env.ext env.ops
      (s.bestChirpmass, s.bm1, s.bm2, s.bm3) (gpcmUsedSF s) env.p
      (env.draws s.count) 0.0001 0.01 0.01 0.01 with
  | error e => rw [hs] at h; simp at h
  | ok batch =>
    rw [hs] at h
    simp only [] at h
    split_ifs at h with hconv himp hgu <;>
      simp only [Except.ok.injEq, Prod.mk.injEq] at h <;>
      obtain ⟨hres, hsf, hmn⟩ := h <;> subst hmn <;> cases hres
    · exact ⟨(min_eq_right (le_of_lt himp)).symm, rfl, hconv⟩
    · exact ⟨(min_eq_left (not_lt.1 himp)).symm, rfl, hconv⟩

/-- A continuing iteration records the minimum of the stored distance and
this round's minimum, increments the count, only happens when the round
did not converge, and keeps the stored scale factor within `[1, 64]`. -/
theorem gpcmStep_next_spec (env : GpcmEnv) (s : GpcmState) (s4 : GpcmState)
    (sf mn : ℚ)
    (h : gpcmStep env s = Except.ok (GpcmStepRes.next s4, sf, mn)) :
    s4.currDist = min s.currDist mn ∧ s4.count = s.count + 1 ∧
      ¬ mn < env.req_match ∧
      (1 ≤ s.scaleFactor → s.scaleFactor ≤ 64 →
        1 ≤ s4.scaleFactor ∧ s4.scaleFactor ≤ 64) := by
  unfold gpcmStep at h
  simp only [] at h
  cases hs : get_mass_distribution env.ext env.ops
      (s.bestChirpmass, s.bm1, s.bm2, s.bm3) (gpcmUsedSF s) env.p
      (env.draws s.count) 0.0001 0.01 0.01 0.01 with
  | error e => rw [hs] at h; simp at h
  | ok batch =>
    rw [hs] at h
    simp only [] at h
    split_ifs at h with hconv himp hgu hmod hr1 hr2 hgu2 hmod2 hr3 hr4 <;>
      simp only [Except.ok.injEq, Prod.mk.injEq] at h <;>
      obtain ⟨hres, hsf, hmn⟩ := h <;> subst hmn <;> cases hres
    all_goals refine ⟨?_, rfl, hconv, ?_⟩
    · exact (min_eq_right (le_of_lt himp)).symm
    · intro hA hB; constructor <;> norm_num
    · exact (min_eq_right (le_of_lt himp)).symm
    · intro hA hB; constructor <;> norm_num
    · exact (min_eq_right (le_of_lt himp)).symm
    · intro hA hB; constructor <;> norm_num
    · exact (min_eq_right (le_of_lt himp)).symm
    · intro hA hB; constructor <;> norm_num
    · exact (min_eq_left (not_lt.1 himp)).symm
    · intro hA hB; constructor <;> norm_num
    · exact (min_eq_left (not_lt.1 himp)).symm
    · intro hA hB
      obtain ⟨hu1, hu64⟩ := gpcmUsedSF_bounds s hA hB
      constructor
      · simp only []
        linarith
      · exact not_lt.1 hr3
    · exact (min_eq_left (not_lt.1 himp)).symm
    · intro hA hB; constructor <;> norm_num
    · exact (min_eq_left (not_lt.1 himp)).symm
    · intro hA hB
      obtain ⟨hu1, hu64⟩ := gpcmUsedSF_bounds s hA hB
      exact ⟨hu1, not_lt.1 hr4⟩

/-- Along any run of the Nearest-Point loop that ends in the give-up
return, the returned distance is the running minimum of the initial
distance and all round minima, the returned count adds one per executed
round, and the distance never falls below `req_match` when the initial
distance did not. -/
theorem gpcmRun_giveUp_spec (env : GpcmEnv) :
    ∀ (fuel : ℕ) (s : GpcmState) (res : GpcmResult) (tr : List (ℚ × ℚ)),
      gpcmRunT env fuel s = (Except.ok (GpcmOut.gaveUp res), tr) →
      res.dist = (tr.map Prod.snd).foldl min s.currDist ∧
      res.count = s.count + tr.length ∧
      (env.req_match ≤ s.currDist → env.req_match ≤ res.dist)
  | 0, s, res, tr, h => by
    rw [gpcmRunT] at h
    simp at h
  | Nat.succ n, s, res, tr, h => by
    rw [gpcmRunT] at h
    cases hstep : gpcmStep env s with
    | error e => rw [hstep] at h; simp at h
    | ok t =>
      obtain ⟨r, sf, mn⟩ := t
      rw [hstep] at h
      cases r with
      | retConv r0 => simp at h
      | retGiveUp r0 =>
        simp only [Prod.mk.injEq, Except.ok.injEq, GpcmOut.gaveUp.injEq] at h
        obtain ⟨hres, htr⟩ := h
        subst hres
        subst htr
        obtain ⟨hd, hc, hnc⟩ := gpcmStep_giveUp_spec env s r0 sf mn hstep
        refine ⟨by simpa using hd, by simpa using hc, ?_⟩
        intro hreq
        rw [hd]
        exact le_min hreq (not_lt.1 hnc)
      | next s4 =>
        simp only [Prod.mk.injEq] at h
        obtain ⟨h1, h2⟩ := h
        obtain ⟨hcd, hct, hnc, _⟩ := gpcmStep_next_spec env s s4 sf mn hstep
        rcases hrest : gpcmRunT env n s4 with ⟨o, tr2⟩
        rw [hrest] at h1 h2
        simp only [] at h1 h2
        subst h1
        obtain ⟨ihd, ihc, ihreq⟩ :=
          gpcmRun_giveUp_spec env n s4 res tr2 hrest
        subst h2
        refine ⟨?_, ?_, ?_⟩
        · rw [ihd, hcd]
          simp [List.foldl_cons]
        · rw [ihc, hct]
          simp
          omega
        · intro hreq
          exact ihreq (by rw [hcd]; exact le_min hreq (not_lt.1 hnc))

/-- Every scale factor recorded in the sampling trace of a Nearest-Point
run stays within `[1, 64]`, provided the stored scale factor starts
there. -/
theorem gpcmRun_sf_trace_bounds (env : GpcmEnv) :
    ∀ (fuel : ℕ) (s : GpcmState), 1 ≤ s.scaleFactor → s.scaleFactor ≤ 64 →
      ∀ x ∈ (gpcmRunT env fuel s).2, 1 ≤ x.1 ∧ x.1 ≤ 64
  | 0, s, h1, h64, x, hx => by
    rw [gpcmRunT] at hx
    simp at hx
  | Nat.succ n, s, h1, h64, x, hx => by
    rw [gpcmRunT] at hx
    cases hstep : gpcmStep env s with
    | error e => rw [hstep] at hx; simp at hx
    | ok t =>
      obtain ⟨r, sf, mn⟩ := t
      rw [hstep] at hx
      have hsf := gpcmStep_sf_eq env s r sf mn hstep
      have hub := gpcmUsedSF_bounds s h1 h64
      cases r with
      | retConv r0 =>
        simp only [] at hx
        rcases List.mem_singleton.1 hx with rfl
        exact ⟨hsf ▸ hub.1, hsf ▸ hub.2⟩
      | retGiveUp r0 =>
        simp only [] at hx
        rcases List.mem_singleton.1 hx with rfl
        exact ⟨hsf ▸ hub.1, hsf ▸ hub.2⟩
      | next s4 =>
        simp only [] at hx
        rcases List.mem_cons.1 hx with hx1 | hx2
        · subst hx1
          exact ⟨hsf ▸ hub.1, hsf ▸ hub.2⟩
        · obtain ⟨hb1, hb64⟩ :=
            (gpcmStep_next_spec env s s4 sf mn hstep).2.2.2 h1 h64
          exact gpcmRun_sf_trace_bounds env n s4 hb1 hb64 x hx2

/-! ## The sentinel overwrite of an extremum round -/

/-- Every within-cutoff value survives the sentinel overwrite: it appears
unchanged in the overwritten array. -/
theorem mem_part_mem_overwritten (L : List (ℚ × ℚ)) (req sent v : ℚ)
    (hv : v ∈ L.filterMap (fun vd => if vd.2 ≤ req then some vd.1 else none)) :
    v ∈ L.map (fun vd => if req < vd.2 then sent else vd.1) := by
  rcases List.mem_filterMap.1 hv with ⟨vd, hvd, heq⟩
  by_cases hc : vd.2 ≤ req
  · rw [if_pos hc] at heq
    injection heq with heq1
    exact List.mem_map.2 ⟨vd, hvd, by rw [if_neg (not_lt.2 hc), heq1]⟩
  · rw [if_neg hc] at heq
    cases heq

/-- If some distance passes the strict cutoff test then the within-cutoff
value list is nonempty. -/
theorem part_exists_of_filter_ne_nil (vals cDist : List ℚ) (req : ℚ)
    (hlen : vals.length = cDist.length)
    (hred : cDist.filter (fun d => decide (d < req)) ≠ []) :
    ∃ v, v ∈ (vals.zip cDist).filterMap
      (fun vd => if vd.2 ≤ req then some vd.1 else none) := by
  obtain ⟨a, ha⟩ := List.exists_mem_of_ne_nil _ hred
  obtain ⟨hac, hap⟩ := List.mem_filter.1 ha
  obtain ⟨i, hi, hia⟩ := List.getElem_of_mem hac
  have hiz : i < (vals.zip cDist).length := by
    rw [List.length_zip, hlen]
    exact lt_of_lt_of_le hi (le_min (le_refl _) (le_refl _))
  have hib : i < vals.length := by rw [hlen]; exact hi
  refine ⟨vals[i], List.mem_filterMap.2
    ⟨(vals.zip cDist)[i], List.getElem_mem hiz, ?_⟩⟩
  rw [List.getElem_zip]
  have : cDist[i] ≤ req := by
    rw [hia]
    exact le_of_lt (of_decide_eq_true hap)
  simp only [if_pos this]

/-- With the within-cutoff values bounded strictly below the `+1e7`
sentinel and at least one candidate strictly inside the cutoff, the
minimum of the overwritten array is itself a within-cutoff value, and it
bounds all of them from below. -/
theorem listMin_overwritten_spec (vals cDist : List ℚ) (req : ℚ)
    (hlen : vals.length = cDist.length)
    (hred : cDist.filter (fun d => decide (d < req)) ≠ [])
    (hb : ∀ v ∈ (vals.zip cDist).filterMap
      (fun vd => if vd.2 ≤ req then some vd.1 else none), v < 10000000) :
    listMin ((vals.zip cDist).map
        (fun vd => if req < vd.2 then (10000000 : ℚ) else vd.1)) ∈
      (vals.zip cDist).filterMap
        (fun vd => if vd.2 ≤ req then some vd.1 else none) ∧
    ∀ v ∈ (vals.zip cDist).filterMap
        (fun vd => if vd.2 ≤ req then some vd.1 else none),
      listMin ((vals.zip cDist).map
        (fun vd => if req < vd.2 then (10000000 : ℚ) else vd.1)) ≤ v := by
  have hle : ∀ v ∈ (vals.zip cDist).filterMap
      (fun vd => if vd.2 ≤ req then some vd.1 else none),
      listMin ((vals.zip cDist).map
        (fun vd => if req < vd.2 then (10000000 : ℚ) else vd.1)) ≤ v :=
    fun v hv => listMin_le _ v
      (mem_part_mem_overwritten (vals.zip cDist) req 10000000 v hv)
  obtain ⟨v0, hv0⟩ := part_exists_of_filter_ne_nil vals cDist req hlen hred
  have hOne : (vals.zip cDist).map
      (fun vd => if req < vd.2 then (10000000 : ℚ) else vd.1) ≠ [] := by
    intro hO
    have hm := mem_part_mem_overwritten (vals.zip cDist) req 10000000 v0 hv0
    rw [hO] at hm
    cases hm
  have hmem := listMin_mem _ hOne
  rcases List.mem_map.1 hmem with ⟨vd, hvd, heq⟩
  by_cases hc : req < vd.2
  · rw [if_pos hc] at heq
    exfalso
    have h1 := hle v0 hv0
    have h2 := hb v0 hv0
    rw [← heq] at h1
    linarith
  · rw [if_neg hc] at heq
    refine ⟨?_, hle⟩
    rw [← heq]
    exact List.mem_filterMap.2 ⟨vd, hvd, if_pos (not_lt.1 hc)⟩

/-- Mirror of `listMin_overwritten_spec` for the maximum and the `-1e7`
sentinel. -/
theorem listMax_overwritten_spec (vals cDist : List ℚ) (req : ℚ)
    (hlen : vals.length = cDist.length)
    (hred : cDist.filter (fun d => decide (d < req)) ≠ [])
    (hb : ∀ v ∈ (vals.zip cDist).filterMap
      (fun vd => if vd.2 ≤ req then some vd.1 else none), -10000000 < v) :
    listMax ((vals.zip cDist).map
        (fun vd => if req < vd.2 then (-10000000 : ℚ) else vd.1)) ∈
      (vals.zip cDist).filterMap
        (fun vd => if vd.2 ≤ req then some vd.1 else none) ∧
    ∀ v ∈ (vals.zip cDist).filterMap
        (fun vd => if vd.2 ≤ req then some vd.1 else none),
      v ≤ listMax ((vals.zip cDist).map
        (fun vd => if req < vd.2 then (-10000000 : ℚ) else vd.1)) := by
  have hle : ∀ v ∈ (vals.zip cDist).filterMap
      (fun vd => if vd.2 ≤ req then some vd.1 else none),
      v ≤ listMax ((vals.zip cDist).map
        (fun vd => if req < vd.2 then (-10000000 : ℚ) else vd.1)) :=
    fun v hv => le_listMax _ v
      (mem_part_mem_overwritten (vals.zip cDist) req (-10000000) v hv)
  obtain ⟨v0, hv0⟩ := part_exists_of_filter_ne_nil vals cDist req hlen hred
  have hOne : (vals.zip cDist).map
      (fun vd => if req < vd.2 then (-10000000 : ℚ) else vd.1) ≠ [] := by
    intro hO
    have hm := mem_part_mem_overwritten (vals.zip cDist) req (-10000000) v0 hv0
    rw [hO] at hm
    cases hm
  have hmem := listMax_mem _ hOne
  rcases List.mem_map.1 hmem with ⟨vd, hvd, heq⟩
  by_cases hc : req < vd.2
  · rw [if_pos hc] at heq
    exfalso
    have h1 := hle v0 hv0
    have h2 := hb v0 hv0
    rw [← heq] at h1
    linarith
  · rw [if_neg hc] at heq
    refine ⟨?_, hle⟩
    rw [← heq]
    exact List.mem_filterMap.2 ⟨vd, hvd, if_pos (not_lt.1 hc)⟩

/-- What one minimising extremum round guarantees, when its surviving
values are bounded below the sentinel: the new running extremum bounds all
surviving values from below, is the old extremum or a surviving value, and
never increases. -/
theorem xiStep_min_spec (env : XiEnv) (s : XiState) (d : List DrawRec)
    (s1 : XiState) (part : List ℚ)
    (h : xiStep env true s d = Except.ok (s1, part))
    (hb : ∀ v ∈ part, v < 10000000) :
    (∀ v ∈ part, s1.xiextrema ≤ v) ∧
    (s1.xiextrema = s.xiextrema ∨ s1.xiextrema ∈ part) ∧
    s1.xiextrema ≤ s.xiextrema := by
  unfold xiStep at h
  cases hs : get_mass_distribution env.ext env.ops
      (s.bestChirpmass, s.bm1, s.bm2, s.bm3) env.scaleFactor env.p d
      0.0001 0.01 0.01 0.01 with
  | error e => rw [hs] at h; simp at h
  | ok batch =>
    rw [hs] at h
    simp only [eq_self_iff_true, if_true, not_true, false_and, false_or,
      true_and] at h
    split_ifs at h with hred hadopt <;>
      simp only [Except.ok.injEq, Prod.mk.injEq] at h <;>
      obtain ⟨hs1, hpart⟩ := h <;> subst hpart <;> rw [← hs1]
    · exact ⟨fun v hv => absurd hv (by simp), Or.inl rfl, le_refl _⟩
    · have hlen : (batch.map (fun c => c.xi.getD env.direction_num 0)).length =
          (batch.map (fun c => cDistOf env.xis c.xi)).length := by
        simp
      obtain ⟨hmem, hle⟩ := listMin_overwritten_spec
        (batch.map (fun c => c.xi.getD env.direction_num 0))
        (batch.map (fun c => cDistOf env.xis c.xi)) env.req_match hlen hred hb
      exact ⟨hle, Or.inr hmem, le_of_lt hadopt⟩
    · have hlen : (batch.map (fun c => c.xi.getD env.direction_num 0)).length =
          (batch.map (fun c => cDistOf env.xis c.xi)).length := by
        simp
      obtain ⟨hmem, hle⟩ := listMin_overwritten_spec
        (batch.map (fun c => c.xi.getD env.direction_num 0))
        (batch.map (fun c => cDistOf env.xis c.xi)) env.req_match hlen hred hb
      exact ⟨fun v hv => le_trans (not_lt.1 hadopt) (hle v hv),
        Or.inl rfl, le_refl _⟩

/-- Mirror of `xiStep_min_spec` for a maximising round. -/
theorem xiStep_max_spec (env : XiEnv) (s : XiState) (d : List DrawRec)
    (s1 : XiState) (part : List ℚ)
    (h : xiStep env false s d = Except.ok (s1, part))
    (hb : ∀ v ∈ part, -10000000 < v) :
    (∀ v ∈ part, v ≤ s1.xiextrema) ∧
    (s1.xiextrema = s.xiextrema ∨ s1.xiextrema ∈ part) ∧
    s.xiextrema ≤ s1.xiextrema := by
  unfold xiStep at h
  cases hs : get_mass_distribution env.ext env.ops
      (s.bestChirpmass, s.bm1, s.bm2, s.bm3) env.scaleFactor env.p d
      0.0001 0.01 0.01 0.01 with
  | error e => rw [hs] at h; simp at h
  | ok batch =>
    rw [hs] at h
    simp only [Bool.false_eq_true, if_false, not_false_iff, true_and,
      false_and, or_false] at h
    split_ifs at h with hred hadopt <;>
      simp only [Except.ok.injEq, Prod.mk.injEq] at h <;>
      obtain ⟨hs1, hpart⟩ := h <;> subst hpart <;> rw [← hs1]
    · exact ⟨fun v hv => absurd hv (by simp), Or.inl rfl, le_refl _⟩
    · have hlen : (batch.map (fun c => c.xi.getD env.direction_num 0)).length =
          (batch.map (fun c => cDistOf env.xis c.xi)).length := by
        simp
      obtain ⟨hmem, hle⟩ := listMax_overwritten_spec
        (batch.map (fun c => c.xi.getD env.direction_num 0))
        (batch.map (fun c => cDistOf env.xis c.xi)) env.req_match hlen hred hb
      exact ⟨hle, Or.inr hmem, le_of_lt hadopt⟩
    · have hlen : (batch.map (fun c => c.xi.getD env.direction_num 0)).length =
          (batch.map (fun c => cDistOf env.xis c.xi)).length := by
        simp
      obtain ⟨hmem, hle⟩ := listMax_overwritten_spec
        (batch.map (fun c => c.xi.getD env.direction_num 0))
        (batch.map (fun c => cDistOf env.xis c.xi)) env.req_match hlen hred hb
      exact ⟨fun v hv => le_trans (hle v hv) (not_lt.1 hadopt),
        Or.inl rfl, le_refl _⟩

/-- Along a minimising extremum run whose surviving values stay below the
sentinel, the final extremum bounds every surviving value from below, is
the initial extremum or a surviving value, and never exceeds the initial
extremum. -/
theorem xiLoop_min_spec (env : XiEnv) :
    ∀ (drawss : List (List DrawRec)) (s s1 : XiState) (tr : List ℚ),
      xiLoop env true drawss s = Except.ok (s1, tr) →
      (∀ v ∈ tr, v < 10000000) →
      (∀ v ∈ tr, s1.xiextrema ≤ v) ∧
      (s1.xiextrema = s.xiextrema ∨ s1.xiextrema ∈ tr) ∧
      s1.xiextrema ≤ s.xiextrema
  | [], s, s1, tr, h, hb => by
    rw [xiLoop] at h
    simp only [Except.ok.injEq, Prod.mk.injEq] at h
    obtain ⟨h1, h2⟩ := h
    subst h2
    rw [← h1]
    exact ⟨by simp, Or.inl rfl, le_refl _⟩
  | dd :: rest, s, s1, tr, h, hb => by
    rw [xiLoop] at h
    cases hstep : xiStep env true s dd with
    | error e => rw [hstep] at h; simp at h
    | ok pr =>
      obtain ⟨sa, part⟩ := pr
      rw [hstep] at h
      simp only [] at h
      cases hL : xiLoop env true rest sa with
      | error e => rw [hL] at h; simp at h
      | ok pr2 =>
        obtain ⟨sb, tr2⟩ := pr2
        rw [hL] at h
        simp only [Except.ok.injEq, Prod.mk.injEq] at h
        obtain ⟨hsb, htr⟩ := h
        subst htr
        have hbp : ∀ v ∈ part, v < 10000000 :=
          fun v hv => hb v (List.mem_append.2 (Or.inl hv))
        have hbt : ∀ v ∈ tr2, v < 10000000 :=
          fun v hv => hb v (List.mem_append.2 (Or.inr hv))
        obtain ⟨ha1, ha2, ha3⟩ := xiStep_min_spec env s dd sa part hstep hbp
        obtain ⟨ih1, ih2, ih3⟩ := xiLoop_min_spec env rest sa sb tr2 hL hbt
        rw [← hsb]
        refine ⟨?_, ?_, le_trans ih3 ha3⟩
        · intro v hv
          rcases List.mem_append.1 hv with hv1 | hv2
          · exact le_trans ih3 (ha1 v hv1)
          · exact ih1 v hv2
        · rcases ih2 with he | hm
          · rw [he]
            rcases ha2 with he2 | hm2
            · exact Or.inl he2
            · exact Or.inr (List.mem_append.2 (Or.inl hm2))
          · exact Or.inr (List.mem_append.2 (Or.inr hm))

/-- Mirror of `xiLoop_min_spec` for a maximising run. -/
theorem xiLoop_max_spec (env : XiEnv) :
    ∀ (drawss : List (List DrawRec)) (s s1 : XiState) (tr : List ℚ),
      xiLoop env false drawss s = Except.ok (s1, tr) →
      (∀ v ∈ tr, -10000000 < v) →
      (∀ v ∈ tr, v ≤ s1.xiextrema) ∧
      (s1.xiextrema = s.xiextrema ∨ s1.xiextrema ∈ tr) ∧
      s.xiextrema ≤ s1.xiextrema
  | [], s, s1, tr, h, hb => by
    rw [xiLoop] at h
    simp only [Except.ok.injEq, Prod.mk.injEq] at h
    obtain ⟨h1, h2⟩ := h
    subst h2
    rw [← h1]
    exact ⟨by simp, Or.inl rfl, le_refl _⟩
  | dd :: rest, s, s1, tr, h, hb => by
    rw [xiLoop] at h
    cases hstep : xiStep env false s dd with
    | error e => rw [hstep] at h; simp at h
    | ok pr =>
      obtain ⟨sa, part⟩ := pr
      rw [hstep] at h
      simp only [] at h
      cases hL : xiLoop env false rest sa with
      | error e => rw [hL] at h; simp at h
      | ok pr2 =>
        obtain ⟨sb, tr2⟩ := pr2
        rw [hL] at h
        simp only [Except.ok.injEq, Prod.mk.injEq] at h
        obtain ⟨hsb, htr⟩ := h
        subst htr
        have hbp : ∀ v ∈ part, -10000000 < v :=
          fun v hv => hb v (List.mem_append.2 (Or.inl hv))
        have hbt : ∀ v ∈ tr2, -10000000 < v :=
          fun v hv => hb v (List.mem_append.2 (Or.inr hv))
        obtain ⟨ha1, ha2, ha3⟩ := xiStep_max_spec env s dd sa part hstep hbp
        obtain ⟨ih1, ih2, ih3⟩ := xiLoop_max_spec env rest sa sb tr2 hL hbt
        rw [← hsb]
        refine ⟨?_, ?_, le_trans ha3 ih3⟩
        · intro v hv
          rcases List.mem_append.1 hv with hv1 | hv2
          · exact le_trans (ha1 v hv1) ih3
          · exact ih1 v hv2
        · rcases ih2 with he | hm
          · rw [he]
            rcases ha2 with he2 | hm2
            · exact Or.inl he2
            · exact Or.inr (List.mem_append.2 (Or.inl hm2))
          · exact Or.inr (List.mem_append.2 (Or.inr hm))

/-- When a minimising `find_xi_extrema_brute` run produced at least one
within-cutoff value and all of them lie below the `1e7` sentinel, the
returned extremum is the minimum of the produced values. -/
theorem find_xi_min_spec (env : XiEnv) (bm : ℚ × ℚ × ℚ × ℚ)
    (drawss : List (List DrawRec)) (r : ℚ × (ℚ × ℚ × ℚ × ℚ) × List ℚ)
    (h : find_xi_extrema_brute env bm true drawss = Except.ok r)
    (hb : ∀ v ∈ r.2.2, v < 10000000) (hne : r.2.2 ≠ []) :
    r.1 ∈ r.2.2 ∧ ∀ v ∈ r.2.2, r.1 ≤ v := by
  unfold find_xi_extrema_brute at h
  cases hL : xiLoop env true drawss (xiInit env.ops bm true) with
  | error e => rw [hL] at h; simp at h
  | ok pr =>
    obtain ⟨sf, tr⟩ := pr
    rw [hL] at h
    simp only [Except.ok.injEq] at h
    subst h
    obtain ⟨h1, h2, _⟩ := xiLoop_min_spec env drawss _ sf tr hL hb
    rcases h2 with he | hm
    · exfalso
      obtain ⟨v0, hv0⟩ := List.exists_mem_of_ne_nil _ hne
      have hle := h1 v0 hv0
      have hv := hb v0 hv0
      rw [he] at hle
      simp [xiInit] at hle
      linarith
    · exact ⟨hm, h1⟩

/-- Mirror of `find_xi_min_spec` for a maximising run and the `-1e7`
sentinel. -/
theorem find_xi_max_spec (env : XiEnv) (bm : ℚ × ℚ × ℚ × ℚ)
    (drawss : List (List DrawRec)) (r : ℚ × (ℚ × ℚ × ℚ × ℚ) × List ℚ)
    (h : find_xi_extrema_brute env bm false drawss = Except.ok r)
    (hb : ∀ v ∈ r.2.2, -10000000 < v) (hne : r.2.2 ≠ []) :
    r.1 ∈ r.2.2 ∧ ∀ v ∈ r.2.2, v ≤ r.1 := by
  unfold find_xi_extrema_brute at h
  cases hL : xiLoop env false drawss (xiInit env.ops bm false) with
  | error e => rw [hL] at h; simp at h
  | ok pr =>
    obtain ⟨sf, tr⟩ := pr
    rw [hL] at h
    simp only [Except.ok.injEq] at h
    subst h
    obtain ⟨h1, h2, _⟩ := xiLoop_max_spec env drawss _ sf tr hL hb
    rcases h2 with he | hm
    · exfalso
      obtain ⟨v0, hv0⟩ := List.exists_mem_of_ne_nil _ hne
      have hle := h1 v0 hv0
      have hv := hb v0 hv0
      rw [he] at hle
      simp only [xiInit] at hle
      norm_num at hle
      linarith
    · exact ⟨hm, h1⟩

/-! ## Extremum rounds with an unsatisfiable cutoff -/

/-- With a non-positive cutoff no candidate's squared distance can fall
below it, so an extremum round adopts nothing and leaves the state
untouched. -/
theorem xiStep_no_candidates (env : XiEnv) (fm : Bool) (s : XiState)
    (d : List DrawRec) (hreq : env.req_match ≤ 0) :
    (∃ e, xiStep env fm s d = Except.error e) ∨
      xiStep env fm s d = Except.ok (s, []) := by
  unfold xiStep
  cases hs : get_mass_distribution env.ext env.ops
      (s.bestChirpmass, s.bm1, s.bm2, s.bm3) env.scaleFactor env.p d
      0.0001 0.01 0.01 0.01 with
  | error e => exact Or.inl ⟨e, rfl⟩
  | ok batch =>
    right
    have hred : (batch.map (fun c => cDistOf env.xis c.xi)).filter
        (fun v => v < env.req_match) = [] := by
      rw [List.filter_eq_nil_iff]
      intro a ha
      rcases List.mem_map.1 ha with ⟨c, _, rfl⟩
      simp only [decide_eq_true_eq]
      exact not_lt.2 (le_trans hreq (cDistOf_nonneg env.xis c.xi))
    simp [hred]

/-- Iterating rounds with a non-positive cutoff leaves the state untouched
and produces an empty trace. -/
theorem xiLoop_no_candidates (env : XiEnv) (fm : Bool)
    (hreq : env.req_match ≤ 0) :
    ∀ (drawss : List (List DrawRec)) (s s1 : XiState) (tr : List ℚ),
      xiLoop env fm drawss s = Except.ok (s1, tr) → s1 = s ∧ tr = []
  | [], s, s1, tr, h => by
    rw [xiLoop] at h
    injection h with h2
    exact ⟨congrArg Prod.fst h2.symm, congrArg Prod.snd h2.symm⟩
  | d :: rest, s, s1, tr, h => by
    rw [xiLoop] at h
    rcases xiStep_no_candidates env fm s d hreq with ⟨e, he⟩ | he
    · rw [he] at h
      exact absurd h (by simp)
    · rw [he] at h
      simp only [] at h
      cases hL : xiLoop env fm rest s with
      | error e => rw [hL] at h; exact absurd h (by simp)
      | ok pr =>
        rw [hL] at h
        obtain ⟨s2, tr2⟩ := pr
        injection h with h2
        obtain ⟨hs2, htr2⟩ := xiLoop_no_candidates env fm hreq rest s s2 tr2 hL
        subst hs2
        refine ⟨congrArg Prod.fst h2.symm, ?_⟩
        have h4 := congrArg Prod.snd h2
        simp [htr2] at h4
        exact h4

/-! ## Error characterisation of the sampler -/

/-- C5 (amended): an invalid candidate is marked with the sentinel rather
than removed — a successful call returns a batch of exactly the input size
— and no error is ever raised on account of a non-guide candidate: whether
`get_mass_distribution` raises depends only on the central point and the
configuration, never on the random draws.  (Exclusion from selection by the callers is
not guaranteed: it depends on where the transform sends the sentinel total
mass.) -/
theorem c5_amended_invalid_candidates (ext : ExternalFns) (ops : FloatOps)
    (bm : ℚ × ℚ × ℚ × ℚ) (sf : ℚ) (p : MassRangeParams)
    (cfac efac s1fac s2fac : ℚ) (d d' : List DrawRec)
    (hlen : d.length = d'.length) :
    ((get_mass_distribution ext ops bm sf p d cfac efac s1fac s2fac).isOk =
      (get_mass_distribution ext ops bm sf p d' cfac efac s1fac s2fac).isOk) ∧
    ∀ b, get_mass_distribution ext ops bm sf p d cfac efac s1fac s2fac =
      Except.ok b → b.length = d.length := by
  cases d with
  | nil =>
    cases d' with
    | nil =>
      refine ⟨rfl, fun b hb => ?_⟩
      simp [get_mass_distribution] at hb
    | cons y ys => simp at hlen
  | cons x xs =>
    cases d' with
    | nil => simp at hlen
    | cons y ys =>
      constructor
      · rw [gmd_cons, gmd_cons]
        split_ifs <;> rfl
      · intro b hb
        rw [gmd_cons] at hb
        split_ifs at hb
        injection hb with h3
        rw [← h3]
        simp

/-- C6 (amended): `get_mass_distribution` raises the guide-point error
exactly when the guide candidate fails the spin/mass classification or its
total mass after the mass-bound filters lies below the `0.00011`
threshold — whether because a filter mapped it to the sentinel `0.0001` or
because it was already that small; when no error is raised, a full batch
(of the input size) is returned. -/
theorem c6_amended_guide_error_iff (ext : ExternalFns) (ops : FloatOps)
    (bm : ℚ × ℚ × ℚ × ℚ) (sf : ℚ) (p : MassRangeParams)
    (cfac efac s1fac s2fac : ℚ) (d : List DrawRec) (hne : d ≠ []) :
    (get_mass_distribution ext ops bm sf p d cfac efac s1fac s2fac =
        Except.error "Cannot remove the guide point!" ↔
      (numplog p (guideCand ext ops bm p) = true ∨
        (applyMassFilter p (applySpinFilter p
          (guideCand ext ops bm p))).totmass < 0.00011)) ∧
    ∀ b, get_mass_distribution ext ops bm sf p d cfac efac s1fac s2fac =
      Except.ok b → b.length = d.length := by
  obtain ⟨x, xs, rfl⟩ := List.exists_cons_of_ne_nil hne
  constructor
  · rw [gmd_cons]
    split_ifs with h1 h2
    · simp [h1]
    · simp [h1, h2]
    · constructor
      · intro hcontra
        exact absurd hcontra (by simp)
      · intro hcase
        rcases hcase with hc | hc
        · exact absurd hc h1
        · exact absurd hc h2
  · intro b hb
    rw [gmd_cons] at hb
    split_ifs at hb
    injection hb with h3
    rw [← h3]
    simp

/-! ## Claim theorems -/

/-- C1: the claim that the index-0 candidate of a `get_mass_distribution`
batch always equals the unperturbed central point exactly — in particular
when `minEta` is configured — fails on the code.  With `minEta = 1/10`
configured and a valid central point whose eta is `1/5`, the reversed
comparison at line 221 (`eta[eta > minEta] = minEta`) lowers the guide's
eta to `1/10`, so the returned batch's element 0 has `eta = 1/10 ≠ 1/5`
while no error is raised. -/
theorem c1_guide_eta_mutated :
    get_mass_distribution extTot opsUnit (14/5, 1/5, 0, 0) 1 paramsMinEta
        [drawHalf] 0.0001 0.01 0.01 0.01 =
      Except.ok [⟨14/5, 14/5, 1/10, 0, 0, 0, 7/5, 7/5, 0, 0, 0, 0, [14/5]⟩] ∧
    (1/10 : ℚ) ≠ (1/5 : ℚ) := by
  constructor
  · norm_num [get_mass_distribution, mkRaw, guideRaw, clampEtaMax, clampEtaMin,
    candDerive, numploga1, numploga, numplogb2, numplogb, numplog,
    applySpinFilter, applyMassFilter, applyTrans, extTot, opsUnit,
      paramsMinEta, drawHalf]
  · norm_num

/-- C2: the claim that a candidate with `mass1` above the black-hole
threshold `2.99` and `|spin1z|` above `maxBHSpinMag` is always invalidated
fails on the code.  Because of the `2,99` typo at line 236,
`numpy.logical_and(mass1 > 2,99, abs(spin1z) <= maxBHSpinMag)` computes
`mass1 > 2` (the spin array being the `out` parameter), so this candidate
— `mass1 = 3 > 2.99`, `spin1z = 19/20 > 9/10 = maxBHSpinMag` — survives
fully valid: its spins are not zeroed and its total mass is not mapped to
the sentinel. -/
theorem c2_spin_cap_dropped :
    get_mass_distribution extTot opsUnit (6, 1/4, 0, 0) 1000 paramsWide
        [drawHalf, ⟨1/2, 1/2, 119/200, 1/2⟩] 0.0001 0.01 0.01 0.01 =
      Except.ok [⟨6, 6, 1/4, 0, 0, 0, 3, 3, 0, 0, 0, 0, [6]⟩,
        ⟨6, 6, 1/4, 19/20, 0, 0, 3, 3, 0, 0, 0, 19/40, [6]⟩] ∧
    (2.99 : ℚ) < 3 ∧ paramsWide.maxBHSpinMag < (19/20 : ℚ) := by
  refine ⟨?_, ?_, ?_⟩
  · norm_num [get_mass_distribution, mkRaw, guideRaw, clampEtaMax, clampEtaMin,
    candDerive, numploga1, numploga, numplogb2, numplogb, numplog,
    applySpinFilter, applyMassFilter, applyTrans, extTot, opsUnit,
      paramsWide, drawHalf]
  · norm_num
  · norm_num [paramsWide]

/-- C3: the claim that a configured `minEta` acts as a floor (every
returned eta at least `minEta`) fails on the code.  With `minEta = 1/10`,
a candidate drawn with eta `1/20 < minEta` is returned unchanged — line
221 lowers etas above `minEta` instead of raising etas below it. -/
theorem c3_minEta_not_a_floor :
    get_mass_distribution extTot opsUnit (14/5, 1/5, 0, 0) 300 paramsMinEta
        [drawHalf, ⟨1/2, 3/4, 1/2, 1/2⟩] 0.0001 0.01 0.01 0.01 =
      Except.ok
        [⟨14/5, 14/5, 1/10, 0, 0, 0, 7/5, 7/5, 0, 0, 0, 0, [14/5]⟩,
         ⟨14/5, 14/5, 1/20, 0, 0, 0, 7/5, 7/5, 0, 0, 0, 0, [14/5]⟩] ∧
    (1/20 : ℚ) < paramsMinEta.minEta := by
  constructor
  · norm_num [get_mass_distribution, mkRaw, guideRaw, clampEtaMax, clampEtaMin,
    candDerive, numploga1, numploga, numplogb2, numplogb, numplog,
    applySpinFilter, applyMassFilter, applyTrans, extTot, opsUnit,
      paramsMinEta, drawHalf]
  · norm_num [paramsMinEta]

/-- C5 counterexample: an invalid candidate is not always excluded from
selection by the callers.  In `envNearest`, the non-guide candidate's `mass1 = 3.00015`
exceeds `maxMass1 = 3.0001`, so its total mass is mapped to the sentinel
`0.0001`; the transform sends that sentinel exactly onto the target, so
`get_physical_covaried_masses` immediately converges onto this invalid
candidate and returns its out-of-bounds `mass1`. -/
theorem c5_sentinel_candidate_selected :
    get_physical_covaried_masses envNearest (6, 1/4, 0, 0) 1 =
      Except.ok (GpcmOut.converged
        ⟨60003/20000, 60003/20000, 0, 0, 0, 0, [1/10000]⟩) ∧
    paramsNarrowM1.maxMass1 < (60003/20000 : ℚ) := by
  constructor
  · norm_num [get_physical_covaried_masses, gpcmRunT, gpcmStep, gpcmInit,
      gpcmUsedSF, get_mass_distribution, mkRaw, guideRaw, clampEtaMax,
      clampEtaMin, candDerive, numploga1, numploga, numplogb2, numplogb,
      numplog, applySpinFilter, applyMassFilter, applyTrans, cDistOf,
      listMin, argminList, argminGo, List.range_succ, extTot, opsUnit,
      paramsNarrowM1, envNearest, drawHalf]
  · norm_num [paramsNarrowM1]

/-- C6 counterexample: the guide-point error is not raised only when the
guide is invalidated by the filters.  With bounds admitting tiny masses
and a central point of total mass `0.00008`, the spin/mass classification
passes and no mass filter fires (the filtered total mass equals the raw
one, `1/12500`), yet the `totmass[0] < 0.00011` check still raises. -/
theorem c6_error_without_invalidation :
    get_mass_distribution extTot opsUnit (1/12500, 1/4, 0, 0) 1 paramsTinyTot
        [drawHalf] 0.0001 0.01 0.01 0.01 =
      Except.error "Cannot remove the guide point!" ∧
    numplog paramsTinyTot
      (guideCand extTot opsUnit (1/12500, 1/4, 0, 0) paramsTinyTot) = false ∧
    (applyMassFilter paramsTinyTot (applySpinFilter paramsTinyTot
        (guideCand extTot opsUnit (1/12500, 1/4, 0, 0) paramsTinyTot))).totmass =
      (guideCand extTot opsUnit (1/12500, 1/4, 0, 0) paramsTinyTot).totmass ∧
    (guideCand extTot opsUnit (1/12500, 1/4, 0, 0) paramsTinyTot).totmass =
      1/12500 := by
  refine ⟨?_, ?_, ?_, ?_⟩ <;>
    norm_num [get_mass_distribution, mkRaw, guideRaw, clampEtaMax,
      clampEtaMin, candDerive, numploga1, numploga, numplogb2, numplogb,
      numplog, applySpinFilter, applyMassFilter, applyTrans, guideCand,
      extTot, opsUnit, paramsTinyTot, drawHalf]

/-- C7 counterexample: `stack_xi_direction_brute` does not always return
`xi_min ≤ xi_max`.  With cutoff `req_match = 0` no candidate ever has
squared distance below the cutoff, both runs keep their initial sentinels,
and the returned pair is `(10^10, -10^11)` with `xi_min > xi_max`; the set
of within-cutoff xi-values produced is empty, so neither value lies in it. -/
theorem c7_min_exceeds_max :
    stack_xi_direction_brute xiEnvZero (6, 1/4, 0, 0) drawsGuide drawsGuide =
      Except.ok (10000000000, -100000000000) ∧
    ¬ ((10000000000 : ℚ) ≤ -100000000000) := by
  constructor
  · norm_num [stack_xi_direction_brute, find_xi_extrema_brute, xiLoop,
      xiStep, xiInit, get_mass_distribution, mkRaw, guideRaw, clampEtaMax,
      clampEtaMin, candDerive, numploga1, numploga, numplogb2, numplogb,
      numplog, applySpinFilter, applyMassFilter, applyTrans, cDistOf,
      listMin, listMax, argminList, argminGo, argmaxList, argmaxGo,
      List.range_succ, List.filterMap_cons, List.filterMap_nil,
      List.cons_ne_nil, extTot, opsUnit, paramsWide, xiEnvZero, drawsGuide,
      drawHalf]
  · norm_num

/-- C4 counterexample: `find_xi_extrema_brute` does not leave its
`bestMasses` argument unchanged, and the maximum returned by
`stack_xi_direction_brute` differs from the one a standalone maximise call
on the original masses returns.  The minimise call adopts a candidate with
total mass `5.5` and leaves `bestMasses = (5.5, 1/4, 0, 0)`; the stacked
maximise call therefore starts there and returns `5.5`, while the same
maximise call on the original `(6, 1/4, 0, 0)` returns `6`. -/
theorem c4_order_dependence :
    find_xi_extrema_brute xiEnvMut (6, 1/4, 0, 0) true drawsShift =
      Except.ok (11/2, (11/2, 1/4, 0, 0), [6, 11/2]) ∧
    ((11/2, 1/4, 0, 0) : ℚ × ℚ × ℚ × ℚ) ≠ (6, 1/4, 0, 0) ∧
    stack_xi_direction_brute xiEnvMut (6, 1/4, 0, 0) drawsShift drawsGuide =
      Except.ok (11/2, 11/2) ∧
    find_xi_extrema_brute xiEnvMut (6, 1/4, 0, 0) false drawsGuide =
      Except.ok (6, (6, 1/4, 0, 0), [6]) ∧
    (11/2 : ℚ) ≠ 6 := by
  refine ⟨?_, ?_, ?_, ?_, ?_⟩ <;>
    norm_num [stack_xi_direction_brute, find_xi_extrema_brute, xiLoop,
      xiStep, xiInit, get_mass_distribution, mkRaw, guideRaw, clampEtaMax,
      clampEtaMin, candDerive, numploga1, numploga, numplogb2, numplogb,
      numplog, applySpinFilter, applyMassFilter, applyTrans, cDistOf,
      listMin, listMax, argminList, argminGo, argmaxList, argmaxGo,
      List.range_succ, List.filterMap_cons, List.filterMap_nil,
      List.cons_ne_nil, extTot, opsUnit, paramsWide, xiEnvMut, drawsShift,
      drawsGuide, drawHalf]

/-- Witness instantiating the C5 amended theorem: two different draw lists
of length one give a call with the same success status. -/
theorem c5_amended_invalid_candidates_witness :
    (get_mass_distribution extTot opsUnit (6, 1/4, 0, 0) 1 paramsWide
      [drawHalf] 0.0001 0.01 0.01 0.01).isOk =
    (get_mass_distribution extTot opsUnit (6, 1/4, 0, 0) 1 paramsWide
      [⟨0, 1/2, 1/2, 1/2⟩] 0.0001 0.01 0.01 0.01).isOk :=
  (c5_amended_invalid_candidates extTot opsUnit (6, 1/4, 0, 0) 1 paramsWide
    0.0001 0.01 0.01 0.01 [drawHalf] [⟨0, 1/2, 1/2, 1/2⟩] rfl).1

/-- Witness instantiating the C6 amended theorem at a concrete valid
configuration. -/
theorem c6_amended_guide_error_iff_witness :
    (get_mass_distribution extTot opsUnit (6, 1/4, 0, 0) 1 paramsWide
        [drawHalf] 0.0001 0.01 0.01 0.01 =
        Except.error "Cannot remove the guide point!" ↔
      (numplog paramsWide
          (guideCand extTot opsUnit (6, 1/4, 0, 0) paramsWide) = true ∨
        (applyMassFilter paramsWide (applySpinFilter paramsWide
          (guideCand extTot opsUnit (6, 1/4, 0, 0) paramsWide))).totmass
            < 0.00011)) :=
  (c6_amended_guide_error_iff extTot opsUnit (6, 1/4, 0, 0) 1 paramsWide
    0.0001 0.01 0.01 0.01 [drawHalf] (List.cons_ne_nil _ _)).1

/-- C4 (amended): `find_xi_extrema_brute` mutates its `bestMasses`
argument in place whenever a round adopts an improving candidate, and the
maximise call of `stack_xi_direction_brute` starts from the masses the
minimise call ended with, so the two calls are order-dependent in general.
They are independent exactly when the minimise call adopts nothing — for
instance whenever the cutoff is non-positive, in which case the minimise
call returns `bestMasses` unchanged and the stacked maximum coincides with
a standalone maximise call on the original masses. -/
theorem c4_amended_independent_when_no_adoption (env : XiEnv)
    (bm : ℚ × ℚ × ℚ × ℚ) (dA dB : List (List DrawRec))
    (rmin : ℚ × (ℚ × ℚ × ℚ × ℚ) × List ℚ)
    (hreq : env.req_match ≤ 0)
    (hmin : find_xi_extrema_brute env bm true dA = Except.ok rmin) :
    rmin.2.1 = bm ∧
    stack_xi_direction_brute env bm dA dB =
      (match find_xi_extrema_brute env bm false dB with
       | Except.error e => Except.error e
       | Except.ok r => Except.ok (rmin.1, r.1)) := by
  have hbm : rmin.2.1 = bm := by
    have h := hmin
    unfold find_xi_extrema_brute at h
    cases hL : xiLoop env true dA (xiInit env.ops bm true) with
    | error e => rw [hL] at h; exact absurd h (by simp)
    | ok pr =>
      rw [hL] at h
      obtain ⟨s1, tr⟩ := pr
      obtain ⟨hs1, htr⟩ :=
        xiLoop_no_candidates env true hreq dA (xiInit env.ops bm true) s1 tr hL
      subst hs1
      injection h with h2
      rw [← h2]
      simp [xiInit]
  refine ⟨hbm, ?_⟩
  obtain ⟨x1, x2, x3⟩ := rmin
  simp only at hbm
  subst hbm
  unfold stack_xi_direction_brute
  rw [hmin]
  simp only []
  cases hR : find_xi_extrema_brute env x2 false dB with
  | error e => simp [hR]
  | ok r =>
    obtain ⟨a, b2, c⟩ := r
    simp [hR]

/-- Witness instantiating the C4 amended theorem: with cutoff `0` the
minimise call leaves the masses `(6, 1/4, 0, 0)` unchanged and the stacked
maximum equals the standalone maximise result. -/
theorem c4_amended_independent_when_no_adoption_witness :
    ((10000000000 : ℚ), ((6 : ℚ), (1/4 : ℚ), (0 : ℚ), (0 : ℚ)),
        ([] : List ℚ)).2.1 = ((6 : ℚ), (1/4 : ℚ), (0 : ℚ), (0 : ℚ)) ∧
    stack_xi_direction_brute xiEnvZero (6, 1/4, 0, 0) drawsGuide drawsGuide =
      (match find_xi_extrema_brute xiEnvZero (6, 1/4, 0, 0) false drawsGuide with
       | Except.error e => Except.error e
       | Except.ok r => Except.ok ((10000000000 : ℚ), r.1)) :=
  c4_amended_independent_when_no_adoption xiEnvZero (6, 1/4, 0, 0)
    drawsGuide drawsGuide (10000000000, (6, 1/4, 0, 0), [])
    (by norm_num [xiEnvZero])
    (by norm_num [find_xi_extrema_brute, xiLoop, xiStep, xiInit,
      get_mass_distribution, mkRaw, guideRaw, clampEtaMax, clampEtaMin,
      candDerive, numploga1, numploga, numplogb2, numplogb, numplog,
      applySpinFilter, applyMassFilter, applyTrans, cDistOf, listMin,
      listMax, argminList, argminGo, argmaxList, argmaxGo, List.range_succ,
      List.filterMap_cons, List.filterMap_nil, List.cons_ne_nil, extTot,
      opsUnit, paramsWide, xiEnvZero, drawsGuide, drawHalf])

/-- C8: when `get_physical_covaried_masses` stops through the give-up
branch (after `giveUpThresh` consecutive non-improving iterations), the
best-known result is returned rather than discarded: the returned squared
distance is the minimum of the initial distance `1e17` and every executed
round's minimum distance, the returned count is the number of executed
iterations, and the returned distance still exceeds (or equals) the
threshold `req_match`. -/
theorem c8_giveup_returns_best (env : GpcmEnv) (bm : ℚ × ℚ × ℚ × ℚ)
    (fuel : ℕ) (res : GpcmResult) (tr : List (ℚ × ℚ))
    (h : gpcmRunT env fuel (gpcmInit env.ops bm) =
      (Except.ok (GpcmOut.gaveUp res), tr))
    (hreq : env.req_match ≤ 100000000000000000) :
    get_physical_covaried_masses env bm fuel =
      Except.ok (GpcmOut.gaveUp res) ∧
    res.dist = (tr.map Prod.snd).foldl min 100000000000000000 ∧
    res.count = tr.length ∧
    env.req_match ≤ res.dist := by
  obtain ⟨hd, hc, hr⟩ :=
    gpcmRun_giveUp_spec env fuel (gpcmInit env.ops bm) res tr h
  refine ⟨?_, ?_, ?_, ?_⟩
  · unfold get_physical_covaried_masses
    rw [h]
  · simpa [gpcmInit] using hd
  · simpa [gpcmInit] using hc
  · exact hr (by simpa [gpcmInit] using hreq)

/-- Witness instantiating C8: with `giveUpThresh = 0` and an unsatisfiable
`req_match = 0` the search gives up after one iteration, returning the
best distance `0` found in that round and count `1`. -/
theorem c8_giveup_returns_best_witness :
    get_physical_covaried_masses envGiveUp (6, 1/4, 0, 0) 1 =
      Except.ok (GpcmOut.gaveUp ⟨3, 3, 0, 0, 1, 0, [6]⟩) ∧
    (GpcmResult.dist ⟨3, 3, 0, 0, 1, 0, [6]⟩ : ℚ) =
      (([((1 : ℚ), (0 : ℚ))]).map Prod.snd).foldl min 100000000000000000 ∧
    (GpcmResult.count ⟨3, 3, 0, 0, 1, 0, [6]⟩ : ℕ) =
      ([((1 : ℚ), (0 : ℚ))]).length ∧
    envGiveUp.req_match ≤ (GpcmResult.dist ⟨3, 3, 0, 0, 1, 0, [6]⟩ : ℚ) :=
  c8_giveup_returns_best envGiveUp (6, 1/4, 0, 0) 1 ⟨3, 3, 0, 0, 1, 0, [6]⟩
    [((1 : ℚ), (0 : ℚ))]
    (by norm_num [gpcmRunT, gpcmStep, gpcmInit, gpcmUsedSF,
      get_mass_distribution, mkRaw, guideRaw, clampEtaMax, clampEtaMin,
      candDerive, numploga1, numploga, numplogb2, numplogb, numplog,
      applySpinFilter, applyMassFilter, applyTrans, cDistOf, listMin,
      argminList, argminGo, List.range_succ, extTot, opsUnit, paramsWide,
      envGiveUp, drawHalf])
    (by norm_num [envGiveUp])

/-- C10: throughout any run of `get_physical_covaried_masses`, the scale
factor actually passed to the Candidate Sampler satisfies
`origScaleFactor = 1 ≤ scaleFactor ≤ 64` at every call. -/
theorem c10_scalefactor_bounded (env : GpcmEnv) (bm : ℚ × ℚ × ℚ × ℚ)
    (fuel : ℕ) (x : ℚ × ℚ)
    (hx : x ∈ (gpcmRunT env fuel (gpcmInit env.ops bm)).2) :
    1 ≤ x.1 ∧ x.1 ≤ 64 :=
  gpcmRun_sf_trace_bounds env fuel (gpcmInit env.ops bm)
    (by norm_num [gpcmInit]) (by norm_num [gpcmInit]) x hx

/-- Witness instantiating C10 on a one-iteration run whose single sampler
call used scale factor `1`. -/
theorem c10_scalefactor_bounded_witness :
    1 ≤ (((1 : ℚ), (0 : ℚ))).1 ∧ (((1 : ℚ), (0 : ℚ))).1 ≤ 64 :=
  c10_scalefactor_bounded envGiveUp (6, 1/4, 0, 0) 1 ((1 : ℚ), (0 : ℚ))
    (by norm_num [gpcmRunT, gpcmStep, gpcmInit, gpcmUsedSF,
      get_mass_distribution, mkRaw, guideRaw, clampEtaMax, clampEtaMin,
      candDerive, numploga1, numploga, numplogb2, numplogb, numplog,
      applySpinFilter, applyMassFilter, applyTrans, cDistOf, listMin,
      argminList, argminGo, List.range_succ, extTot, opsUnit, paramsWide,
      envGiveUp, drawHalf])

/-- C9: if the target xis exactly equal the xi coordinates of the guide
candidate of the first sampling round (the transform of the starting
point, when the starting point survives the clamps unchanged) and
`req_match > 0`, then `get_physical_covaried_masses` returns on its first
iteration: the guide candidate at batch index 0 already has squared
distance `0 < req_match`, the first minimal index is `0`, and the search
returns that candidate with iteration count `0` and achieved squared
distance `0`. -/
theorem c9_exact_target_immediate (env : GpcmEnv) (bm : ℚ × ℚ × ℚ × ℚ)
    (fuel : ℕ) (batch : List Cand)
    (hfuel : 0 < fuel) (hreq : 0 < env.req_match)
    (hb : get_mass_distribution env.ext env.ops
        (bm.1 * env.ops.pow35 bm.2.1, bm.2.1, bm.2.2.1, bm.2.2.2) 1 env.p
        (env.draws 0) 0.0001 0.01 0.01 0.01 = Except.ok batch)
    (hxi : cDistOf env.xis ((batch.headD default).xi) = 0) :
    get_physical_covaried_masses env bm fuel =
      Except.ok (GpcmOut.converged
        { mass1 := (batch.headD default).mass1
          mass2 := (batch.headD default).mass2
          spin1z := (batch.headD default).spin1z
          spin2z := (batch.headD default).spin2z
          count := 0, dist := 0, new_xis := (batch.headD default).xi }) := by
  obtain ⟨n, rfl⟩ : ∃ n, fuel = n + 1 :=
    ⟨fuel - 1, (Nat.succ_pred_eq_of_pos hfuel).symm⟩
  obtain ⟨g, rest, rfl⟩ := List.exists_cons_of_ne_nil
    (gmd_ok_ne_nil env.ext env.ops _ 1 env.p (env.draws 0)
      0.0001 0.01 0.01 0.01 batch hb)
  simp only [List.headD_cons] at hxi ⊢
  have husf : gpcmUsedSF (gpcmInit env.ops bm) = 1 := by
    simp [gpcmUsedSF, gpcmInit]
  have hb2 : get_mass_distribution env.ext env.ops
      ((gpcmInit env.ops bm).bestChirpmass, (gpcmInit env.ops bm).bm1,
        (gpcmInit env.ops bm).bm2, (gpcmInit env.ops bm).bm3)
      (gpcmUsedSF (gpcmInit env.ops bm)) env.p
      (env.draws (gpcmInit env.ops bm).count) 0.0001 0.01 0.01 0.01 =
      Except.ok (g :: rest) := by
    rw [husf]
    exact hb
  have hnn : ∀ v ∈ rest.map (fun c => cDistOf env.xis c.xi), 0 ≤ v := by
    intro v hv
    rcases List.mem_map.1 hv with ⟨c, _, rfl⟩
    exact cDistOf_nonneg _ _
  have hmn : listMin ((g :: rest).map (fun c => cDistOf env.xis c.xi)) = 0 := by
    rw [List.map_cons, hxi]
    exact le_antisymm (foldlMin_le_init _ 0)
      (le_foldlMin _ 0 0 (le_refl 0) hnn)
  have hidx : argminList ((g :: rest).map (fun c => cDistOf env.xis c.xi)) = 0 := by
    rw [List.map_cons, hxi]
    exact argminList_head 0 _ hnn
  have hstep : gpcmStep env (gpcmInit env.ops bm) =
      Except.ok (GpcmStepRes.retConv
        { mass1 := g.mass1, mass2 := g.mass2, spin1z := g.spin1z
          spin2z := g.spin2z, count := 0, dist := 0, new_xis := g.xi },
        1, 0) := by
    unfold gpcmStep
    simp only []
    rw [hb2]
    simp only [hmn, hidx]
    rw [if_pos hreq]
    simp [gpcmInit, gpcmUsedSF]
  unfold get_physical_covaried_masses
  rw [gpcmRunT, hstep]

/-- Witness instantiating C9: the target `[6]` is the transform of the
starting point `(6, 1/4, 0, 0)`, and the search converges at count `0`
with distance `0`. -/
theorem c9_exact_target_immediate_witness :
    get_physical_covaried_masses envExact (6, 1/4, 0, 0) 1 =
      Except.ok (GpcmOut.converged ⟨3, 3, 0, 0, 0, 0, [6]⟩) := by
  have h := c9_exact_target_immediate envExact (6, 1/4, 0, 0) 1
    [⟨6, 6, 1/4, 0, 0, 0, 3, 3, 0, 0, 0, 0, [6]⟩]
    (by norm_num) (by norm_num [envExact])
    (by norm_num [get_mass_distribution, mkRaw, guideRaw, clampEtaMax,
      clampEtaMin, candDerive, numploga1, numploga, numplogb2, numplogb,
      numplog, applySpinFilter, applyMassFilter, applyTrans, extTot,
      opsUnit, paramsWide, envExact, drawHalf])
    (by norm_num [cDistOf, List.range_succ, envExact])
  simpa using h

/-- C7 (amended): for the same target, direction and cutoff, provided each
of the two `find_xi_extrema_brute` runs inside `stack_xi_direction_brute`
found at least one candidate within the cutoff, all values these
candidates produced stay strictly inside the `±1e7` sentinels, and some
value of the minimise run does not exceed some value of the maximise run
(for instance a value common to both), then the returned pair satisfies
`xi_min ≤ xi_max`, `xi_min` is the minimum of the values the minimise run
produced within the cutoff, and `xi_max` the maximum of those of the
maximise run — so both lie within the range of xi-values actually produced
by within-cutoff candidates across the rounds.  Without these provisos the
claim fails: two runs with disjoint value sets, or runs finding no
candidate at all (then the pair is the initial sentinels
`(1e10, -1e11)`), can give `xi_min > xi_max`. -/
theorem c7_amended_extrema_in_range (env : XiEnv) (bm : ℚ × ℚ × ℚ × ℚ)
    (dA dB : List (List DrawRec))
    (rmin rmax : ℚ × (ℚ × ℚ × ℚ × ℚ) × List ℚ)
    (hmin : find_xi_extrema_brute env bm true dA = Except.ok rmin)
    (hmax : find_xi_extrema_brute env rmin.2.1 false dB = Except.ok rmax)
    (hbmin : ∀ v ∈ rmin.2.2, |v| < 10000000)
    (hbmax : ∀ v ∈ rmax.2.2, |v| < 10000000)
    (hnemin : rmin.2.2 ≠ []) (hnemax : rmax.2.2 ≠ [])
    (hcross : ∃ v1 ∈ rmin.2.2, ∃ v2 ∈ rmax.2.2, v1 ≤ v2) :
    stack_xi_direction_brute env bm dA dB = Except.ok (rmin.1, rmax.1) ∧
    rmin.1 ≤ rmax.1 ∧
    rmin.1 ∈ rmin.2.2 ∧ (∀ v ∈ rmin.2.2, rmin.1 ≤ v) ∧
    rmax.1 ∈ rmax.2.2 ∧ (∀ v ∈ rmax.2.2, v ≤ rmax.1) := by
  obtain ⟨hminmem, hminle⟩ := find_xi_min_spec env bm dA rmin hmin
    (fun v hv => (abs_lt.1 (hbmin v hv)).2) hnemin
  obtain ⟨hmaxmem, hmaxle⟩ := find_xi_max_spec env rmin.2.1 dB rmax hmax
    (fun v hv => (abs_lt.1 (hbmax v hv)).1) hnemax
  have hstack : stack_xi_direction_brute env bm dA dB =
      Except.ok (rmin.1, rmax.1) := by
    obtain ⟨m1, m2, m3⟩ := rmin
    obtain ⟨x1, x2, x3⟩ := rmax
    unfold stack_xi_direction_brute
    rw [hmin]
    simp only []
    rw [hmax]
  refine ⟨hstack, ?_, hminmem, hminle, hmaxmem, hmaxle⟩
  obtain ⟨v1, hv1, v2, hv2, h12⟩ := hcross
  exact le_trans (hminle v1 hv1) (le_trans h12 (hmaxle v2 hv2))

/-- Witness instantiating the C7 amended theorem: single-round runs whose
only within-cutoff value is `6` on both sides give
`xi_min = xi_max = 6`. -/
theorem c7_amended_extrema_in_range_witness :
    stack_xi_direction_brute xiEnvOne (6, 1/4, 0, 0) drawsGuide drawsGuide =
      Except.ok ((6 : ℚ), (6 : ℚ)) ∧
    (6 : ℚ) ≤ (6 : ℚ) ∧
    (6 : ℚ) ∈ [(6 : ℚ)] ∧ (∀ v ∈ [(6 : ℚ)], (6 : ℚ) ≤ v) ∧
    (6 : ℚ) ∈ [(6 : ℚ)] ∧ (∀ v ∈ [(6 : ℚ)], v ≤ (6 : ℚ)) :=
  c7_amended_extrema_in_range xiEnvOne (6, 1/4, 0, 0) drawsGuide drawsGuide
    (6, (6, 1/4, 0, 0), [6]) (6, (6, 1/4, 0, 0), [6])
    (by norm_num [find_xi_extrema_brute, xiLoop, xiStep, xiInit,
      get_mass_distribution, mkRaw, guideRaw, clampEtaMax, clampEtaMin,
      candDerive, numploga1, numploga, numplogb2, numplogb, numplog,
      applySpinFilter, applyMassFilter, applyTrans, cDistOf, listMin,
      listMax, argminList, argminGo, argmaxList, argmaxGo, List.range_succ,
      List.filterMap_cons, List.filterMap_nil, List.cons_ne_nil, extTot,
      opsUnit, paramsWide, xiEnvOne, drawsGuide, drawHalf])
    (by norm_num [find_xi_extrema_brute, xiLoop, xiStep, xiInit,
      get_mass_distribution, mkRaw, guideRaw, clampEtaMax, clampEtaMin,
      candDerive, numploga1, numploga, numplogb2, numplogb, numplog,
      applySpinFilter, applyMassFilter, applyTrans, cDistOf, listMin,
      listMax, argminList, argminGo, argmaxList, argmaxGo, List.range_succ,
      List.filterMap_cons, List.filterMap_nil, List.cons_ne_nil, extTot,
      opsUnit, paramsWide, xiEnvOne, drawsGuide, drawHalf])
    (by intro v hv; simp at hv; subst hv; norm_num)
    (by intro v hv; simp at hv; subst hv; norm_num)
    (by simp) (by simp)
    ⟨6, List.mem_singleton.2 rfl, 6, List.mem_singleton.2 rfl, le_refl 6⟩

end BruteForce
